import Mathlib

/-!
# Verification of the EasyGmsh rectangular mesh generator

A shallow embedding of `src/EasyGmsh/RectMesh.py`.  The gmsh geometry kernel
is modelled as an event log (`GmshState`): each `add*` call appends one event
and returns the freshly allocated tag `length + 1`, which matches gmsh's
sequential tag allocation in a fresh session.  The `RectMesh` class becomes a
structure threaded explicitly through the generation phases.  Machine floats
only occur as node coordinates and the mesh-size hint, which no verified claim
depends on; they are carried as opaque integer stand-ins.  Python exceptions
become `Except PyErr`.
-/

set_option maxRecDepth 4000

namespace EasyGmsh

/-- Errors the Python code can raise: `RuntimeError(msg)` and `IndexError`
(from list / numpy indexing). -/
inductive PyErr where
  | runtimeError (msg : String)
  | indexError
deriving Repr, DecidableEq

/-- The gmsh kernel session, modelled as event logs.  A point is
`(x, y, z, meshSize)`, a line is `(startTag, endTag)`, a curve loop is its
list of signed line tags, a plane surface is its list of loop tags, a
physical group is `(dim, entityTags, tag, name)`. -/
structure GmshState where
  points : List (Int × Int × Int × Int)
  lines : List (Int × Int)
  curveLoops : List (List Int)
  planeSurfaces : List (List Int)
  physicalGroups : List (Nat × List Int × Int × String)
deriving Repr, DecidableEq

/-- A freshly initialized gmsh session (`gmsh.initialize()`). -/
def GmshState.empty : GmshState := ⟨[], [], [], [], []⟩

/-- Models `gmsh.model.geo.addPoint(x, y, z, meshSize)`. -/
def addPoint (g : GmshState) (x y z sz : Int) : Int × GmshState :=
  ((g.points.length : Int) + 1, { g with points := g.points ++ [(x, y, z, sz)] })

/-- Models `gmsh.model.geo.addLine(start, end)`. -/
def addLine (g : GmshState) (s e : Int) : Int × GmshState :=
  ((g.lines.length : Int) + 1, { g with lines := g.lines ++ [(s, e)] })

/-- Models `gmsh.model.geo.addCurveLoop(lines)`. -/
def addCurveLoop (g : GmshState) (ls : List Int) : Int × GmshState :=
  ((g.curveLoops.length : Int) + 1, { g with curveLoops := g.curveLoops ++ [ls] })

/-- Models `gmsh.model.geo.addPlaneSurface(loops)`. -/
def addPlaneSurface (g : GmshState) (ls : List Int) : Int × GmshState :=
  ((g.planeSurfaces.length : Int) + 1,
   { g with planeSurfaces := g.planeSurfaces ++ [ls] })

/-- Models `gmsh.model.geo.addPhysicalGroup(dim, entities, tag, name=name)`. -/
def addPhysicalGroup (g : GmshState) (dim : Nat) (ents : List Int)
    (tag : Int) (name : String) : GmshState :=
  { g with physicalGroups := g.physicalGroups ++ [(dim, ents, tag, name)] }

/-- The `RectMesh` object.  The numpy id grids (`nodes`, `linex`, `liney`,
`curves`, `surfaces`) are total functions from grid coordinates to the stored
tag, updated pointwise as the Python loops assign entries. -/
structure RectMesh where
  x : List Int
  y : List Int
  _materials : Option (List (List Int))
  _material_names : Option (List String)
  mesh_size : Int
  nodes : Nat → Nat → Int
  linex : Nat → Nat → Int
  liney : Nat → Nat → Int
  curves : Nat → Nat → Int
  surfaces : Nat → Nat → Int
  n_matrial : Nat
  physical_groups : List (String × List Int)

/-- Models `RectMesh.__init__`: only `x`, `y`, `_materials`, `_material_names` are
set; the remaining attributes do not exist yet and get inert defaults. -/
def RectMesh.init (lx ly : List Int) (materials : Option (List (List Int)))
    (material_names : Option (List String)) : RectMesh :=
  { x := lx, y := ly, _materials := materials,
    _material_names := material_names, mesh_size := 0,
    nodes := fun _ _ => 0, linex := fun _ _ => 0, liney := fun _ _ => 0,
    curves := fun _ _ => 0, surfaces := fun _ _ => 0,
    n_matrial := 0, physical_groups := [] }

/-- Derived count `self.nx = len(self.x) - 1`. -/
def RectMesh.nx (m : RectMesh) : Nat := m.x.length - 1

/-- Derived count `self.ny = len(self.y) - 1`. -/
def RectMesh.ny (m : RectMesh) : Nat := m.y.length - 1

/-- Pointwise update of an id grid (one numpy element assignment). -/
def setGrid (gr : Nat → Nat → Int) (i j : Nat) (v : Int) : Nat → Nat → Int :=
  fun a b => if a = i ∧ b = j then v else gr a b

/-- Body of the `generate_nodes` double loop at indices `(iy, ix)`:
`self.nodes[ix, iy] = gmsh.model.geo.addPoint(x, y, 0., self.mesh_size)`. -/
def nodeStep (s : RectMesh × GmshState) (iy ix : Nat) : RectMesh × GmshState :=
  let xv := s.1.x.getD ix 0
  let yv := s.1.y.getD iy 0
  let r := addPoint s.2 xv yv 0 s.1.mesh_size
  ({ s.1 with nodes := setGrid s.1.nodes ix iy r.1 }, r.2)

/-- Models `RectMesh.generate_nodes`: `for iy in range(ny+1): for ix in range(nx+1)`. -/
def generate_nodes (m : RectMesh) (g : GmshState) : RectMesh × GmshState :=
  (List.range (m.ny + 1)).foldl
    (fun s iy => (List.range (m.nx + 1)).foldl (fun s ix => nodeStep s iy ix) s)
    (m, g)

/-- Body of the x-line loop at `(iy, ix)`:
`self.linex[ix, iy] = addLine(self.nodes[ix, iy], self.nodes[ix+1, iy])`. -/
def linexStep (s : RectMesh × GmshState) (iy ix : Nat) : RectMesh × GmshState :=
  let start := s.1.nodes ix iy
  let stop := s.1.nodes (ix + 1) iy
  let r := addLine s.2 start stop
  ({ s.1 with linex := setGrid s.1.linex ix iy r.1 }, r.2)

/-- Body of the y-line loop at `(ix, iy)`:
`self.liney[ix, iy] = addLine(self.nodes[ix, iy], self.nodes[ix, iy+1])`. -/
def lineyStep (s : RectMesh × GmshState) (ix iy : Nat) : RectMesh × GmshState :=
  let start := s.1.nodes ix iy
  let stop := s.1.nodes ix (iy + 1)
  let r := addLine s.2 start stop
  ({ s.1 with liney := setGrid s.1.liney ix iy r.1 }, r.2)

/-- Models `RectMesh.generate_lines`: the x-direction loop
(`iy` outer over `range(ny+1)`, `ix` inner over `range(nx)`), then the
y-direction loop (`ix` outer over `range(nx+1)`, `iy` inner over `range(ny)`). -/
def generate_lines (m : RectMesh) (g : GmshState) : RectMesh × GmshState :=
  let s1 := (List.range (m.ny + 1)).foldl
    (fun s iy => (List.range m.nx).foldl (fun s ix => linexStep s iy ix) s)
    (m, g)
  (List.range (m.nx + 1)).foldl
    (fun s ix => (List.range m.ny).foldl (fun s iy => lineyStep s ix iy) s)
    s1

/-- Body of the `generate_surfaces` loop at `(iy, ix)`: build the signed
4-edge loop `[+liney[ix+1,iy], -linex[ix,iy+1], -liney[ix,iy], +linex[ix,iy]]`,
register it as a curve loop and then as a plane surface. -/
def surfStep (s : RectMesh × GmshState) (iy ix : Nat) : RectMesh × GmshState :=
  let ls : List Int :=
    [ s.1.liney (ix + 1) iy,
      - s.1.linex ix (iy + 1),
      - s.1.liney ix iy,
      s.1.linex ix iy ]
  let r1 := addCurveLoop s.2 ls
  let m1 := { s.1 with curves := setGrid s.1.curves ix iy r1.1 }
  let r2 := addPlaneSurface r1.2 [m1.curves ix iy]
  ({ m1 with surfaces := setGrid m1.surfaces ix iy r2.1 }, r2.2)

/-- Models `RectMesh.generate_surfaces`: `for iy in range(ny): for ix in range(nx)`. -/
def generate_surfaces (m : RectMesh) (g : GmshState) : RectMesh × GmshState :=
  (List.range m.ny).foldl
    (fun s iy => (List.range m.nx).foldl (fun s ix => surfStep s iy ix) s)
    (m, g)

/-- Python list indexing with an `int` index: nonnegative indices must be
below the length, negative indices wrap once from the end. -/
def pyListIdx (n : Nat) (i : Int) : Option Nat :=
  if 0 ≤ i then (if i < (n : Int) then some i.toNat else none)
  else (if 0 ≤ i + (n : Int) then some (i + (n : Int)).toNat else none)

/-- 2-d numpy element read `mat[r, c]` for nonnegative `r`, `c`. -/
def npGet2 (mat : List (List Int)) (r c : Nat) : Option Int :=
  match mat[r]? with
  | none => none
  | some row => row[c]?

/-- Body of the `generate_physical_groups` cell loop at `(iy, ix)`:
`material_id = self._materials[self.ny - 1 - iy, ix] - 1` and
`self.physical_groups[material_id]["entities"].append(self.surfaces[ix, iy])`.
A raised `IndexError` aborts the loop. -/
def pgStep (m : RectMesh) (mat : List (List Int))
    (acc : Except PyErr (List (String × List Int))) (iy ix : Nat) :
    Except PyErr (List (String × List Int)) :=
  match acc with
  | .error e => .error e
  | .ok groups =>
    match npGet2 mat (m.ny - 1 - iy) ix with
    | none => .error .indexError
    | some v =>
      let material_id : Int := v - 1
      let entity_id : Int := m.surfaces ix iy
      match pyListIdx groups.length material_id with
      | none => .error .indexError
      | some gi =>
        let grp := groups.getD gi ("", [])
        .ok (groups.set gi (grp.1, grp.2 ++ [entity_id]))

/-- The material names `generate_physical_groups` uses: the stored list, or
`[str(i) for i in range(len(materials))]` when `_material_names is None`. -/
def pgNames (m : RectMesh) (mat : List (List Int)) : List String :=
  match m._material_names with
  | none => (List.range mat.length).map (fun i => toString i)
  | some ns => ns

/-- The body of `RectMesh.generate_physical_groups` once the material matrix
is known: default the names, create one empty group per name, classify every
cell (`iy` outer, `ix` inner), then register each group via
`addPhysicalGroup(2, entities, group_id + 1, name)`. -/
def generate_physical_groups_core (m : RectMesh) (g : GmshState)
    (mat : List (List Int)) : Except PyErr (RectMesh × GmshState) :=
  let names : List String := pgNames m mat
  let groups0 : List (String × List Int) := names.map (fun nm => (nm, []))
  let res := (List.range m.ny).foldl
    (fun acc iy => (List.range m.nx).foldl (fun acc ix => pgStep m mat acc iy ix) acc)
    (Except.ok groups0)
  match res with
  | .error e => .error e
  | .ok groups =>
    let m1 := { m with _material_names := some names, n_matrial := mat.length,
                       physical_groups := groups }
    let g1 := groups.enum.foldl
      (fun gs p => addPhysicalGroup gs 2 p.2.2 ((p.1 : Int) + 1) p.2.1) g
    .ok (m1, g1)

/-- Models `RectMesh.generate_physical_groups`: raise `RuntimeError` if
`_materials is None`, otherwise run the classification and registration. -/
def generate_physical_groups (m : RectMesh) (g : GmshState) :
    Except PyErr (RectMesh × GmshState) :=
  match m._materials with
  | none => .error (.runtimeError "Materials not found.")
  | some mat => generate_physical_groups_core m g mat

/-- The node/line/surface construction pipeline from a fresh session, with
`self.mesh_size = mesh_size` set first (the start of `RectMesh.generate`). -/
def builtMesh (m : RectMesh) (sz : Int) : RectMesh × GmshState :=
  let m0 := { m with mesh_size := sz }
  let s1 := generate_nodes m0 GmshState.empty
  let s2 := generate_lines s1.1 s1.2
  generate_surfaces s2.1 s2.2

/-- Models `RectMesh.generate(mesh_size)`: the full pipeline including physical
groups. -/
def generate (m : RectMesh) (sz : Int) : Except PyErr (RectMesh × GmshState) :=
  let s := builtMesh m sz
  generate_physical_groups s.1 s.2

/-- The default selection `[np.array(range(self.nx)), np.array(range(self.ny))]`
built by `greater` / `less` / `equal` when `selected is None`. -/
def defaultSelected (m : RectMesh) : List (List Int) :=
  [(List.range m.nx).map (fun i : Nat => (i : Int)),
   (List.range m.ny).map (fun i : Nat => (i : Int))]

/-- Models `RectMesh.greater(dim, bound, selected)`: keep the ids `i` of axis `dim`
with `i >= bound` (numpy boolean-mask indexing preserves order, i.e. filter). -/
def greater (m : RectMesh) (dim : Nat) (bound : Int)
    (selected : Option (List (List Int))) : List (List Int) :=
  let sel := match selected with
    | none => defaultSelected m
    | some s => s
  sel.set dim ((sel.getD dim []).filter (fun i => decide (bound ≤ i)))

/-- Models `RectMesh.less(dim, bound, selected)`: keep ids with `i <= bound`. -/
def less (m : RectMesh) (dim : Nat) (bound : Int)
    (selected : Option (List (List Int))) : List (List Int) :=
  let sel := match selected with
    | none => defaultSelected m
    | some s => s
  sel.set dim ((sel.getD dim []).filter (fun i => decide (i ≤ bound)))

/-- Models `RectMesh.equal(dim, bound, selected)`: keep ids with `i == bound`. -/
def equal (m : RectMesh) (dim : Nat) (bound : Int)
    (selected : Option (List (List Int))) : List (List Int) :=
  let sel := match selected with
    | none => defaultSelected m
    | some s => s
  sel.set dim ((sel.getD dim []).filter (fun i => decide (i = bound)))

/-- Models `RectMesh.join(a, b)`: per axis, `np.sort(np.unique(np.concatenate(...)))`
— the sorted duplicate-free union.  `List.dedup` on the sorted concatenation
keeps the first occurrence of each value, giving the sorted set union. -/
def join (a b : List (List Int)) : List (List Int) :=
  (a.zip b).map
    (fun p => (List.insertionSort (fun u v : Int => u ≤ v) (p.1 ++ p.2)).dedup)

/-- Broadcasting of two 1-d integer index arrays, as numpy advanced indexing
does it: equal lengths are zipped elementwise, a length-1 array is repeated
to the other array's length, anything else raises. -/
def broadcastPair (xs ys : List Int) : Option (List (Int × Int)) :=
  if xs.length = ys.length then some (xs.zip ys)
  else if xs.length = 1 then some (ys.map (fun yv => (xs.getD 0 0, yv)))
  else if ys.length = 1 then some (xs.map (fun xv => (xv, ys.getD 0 0)))
  else none

/-- Models `RectMesh.resolve(coord)`: `self.surfaces[coord[0], coord[1]]` — numpy
advanced indexing of the `[nx, ny]` surface grid with two index arrays:
broadcast, then read every `(ix, iy)` pair (negative indices wrap once,
out-of-range indices raise). -/
def resolve (m : RectMesh) (coord : List (List Int)) : Except PyErr (List Int) :=
  match broadcastPair (coord.getD 0 []) (coord.getD 1 []) with
  | none => .error .indexError
  | some ps =>
    match ps.mapM (fun p => do
        let i ← pyListIdx m.nx p.1
        let j ← pyListIdx m.ny p.2
        pure (m.surfaces i j)) with
    | none => .error .indexError
    | some r => .ok r

/-- A heap of selection objects, to express Python's in-place list mutation:
`greater` / `less` / `equal` receive a reference to a selection and update the
referenced object. -/
abbrev SelStore := List (List (List Int))

/-- Models `greater` called with an explicitly passed `selected` list object:
`selected[dim] = selected[dim][np.where(selected[dim] >= bound)]` mutates the
referenced object in place and `return selected` returns that same reference. -/
def greaterRef (m : RectMesh) (dim : Nat) (bound : Int)
    (st : SelStore) (ref : Nat) : Nat × SelStore :=
  (ref, st.set ref (greater m dim bound (some (st.getD ref []))))

/-- Models `less` on a referenced selection object, mutating it in place. -/
def lessRef (m : RectMesh) (dim : Nat) (bound : Int)
    (st : SelStore) (ref : Nat) : Nat × SelStore :=
  (ref, st.set ref (less m dim bound (some (st.getD ref []))))

/-- Models `equal` on a referenced selection object, mutating it in place. -/
def equalRef (m : RectMesh) (dim : Nat) (bound : Int)
    (st : SelStore) (ref : Nat) : Nat × SelStore :=
  (ref, st.set ref (equal m dim bound (some (st.getD ref []))))

/-- Python `f"{sid:<5d}"`: decimal rendering left-aligned in a 5-wide field
(no truncation of longer renderings). -/
def padRight5 (s : String) : String :=
  s ++ String.mk (List.replicate (5 - s.length) ' ')

/-- One output line `f"{assembly_id:<5d} {material_id + 1:d}\n"`. -/
def fmtLine (sid gid1 : Int) : String :=
  padRight5 (toString sid) ++ " " ++ toString gid1 ++ "\n"

/-- Models `RectMesh.export_assembly_materials`: flatten the groups into
`[entity, group_id]` pairs, sort by entity id, and write the formatted lines.
This is the content written to the output file.  (Python's `sorted` is stable;
insertion sort on `≤` of the key agrees with it whenever the surface ids are
pairwise distinct, which the generation pipeline guarantees.) -/
def export_assembly_materials (m : RectMesh) : String :=
  let ams : List (Int × Nat) :=
    m.physical_groups.enum.flatMap (fun p => p.2.2.map (fun en => (en, p.1)))
  let srt := List.insertionSort (fun a b : Int × Nat => a.1 ≤ b.1) ams
  String.join (srt.map (fun p => fmtLine p.1 ((p.2 : Int) + 1)))

end EasyGmsh

namespace EasyGmsh

/-! ## Loop characterization: `generate_nodes` -/

/-- The point event created for grid position `(ix, iy)`. -/
def nodeEvt (m : RectMesh) (iy ix : Nat) : Int × Int × Int × Int :=
  (m.x.getD ix 0, m.y.getD iy 0, (0 : Int), m.mesh_size)

/-- The point events of one `iy` row, in `ix` order. -/
def nodeRowLog (m : RectMesh) (iy C : Nat) : List (Int × Int × Int × Int) :=
  (List.range C).map (nodeEvt m iy)

/-- All point events, rows in `iy` order. -/
def nodeLog (m : RectMesh) (R C : Nat) : List (Int × Int × Int × Int) :=
  (List.range R).flatMap (fun iy => nodeRowLog m iy C)

theorem length_nodeRowLog (m : RectMesh) (iy C : Nat) :
    (nodeRowLog m iy C).length = C := by
  simp [nodeRowLog]

theorem length_nodeLog (m : RectMesh) (R C : Nat) :
    (nodeLog m R C).length = R * C := by
  induction R with
  | zero => simp [nodeLog]
  | succ k ih =>
    rw [nodeLog, List.range_succ, List.flatMap_append] at *
    simp only [List.flatMap_cons, List.flatMap_nil, List.append_nil,
      List.length_append, nodeLog] at *
    rw [ih, length_nodeRowLog]
    ring

/-- One row of the node loop: points are appended in `ix` order and the node
grid records the sequential tags; entries outside the row are untouched. -/
theorem nodesRow_spec (m : RectMesh) (g : GmshState) (iy n : Nat) :
    ∃ nd : Nat → Nat → Int,
      (List.range n).foldl (fun s ix => nodeStep s iy ix) (m, g) =
        ({ m with nodes := nd },
         { g with points := g.points ++ nodeRowLog m iy n }) ∧
      (∀ ix, ix < n → nd ix iy = ((g.points.length + ix + 1 : Nat) : Int)) ∧
      (∀ i j, j ≠ iy ∨ n ≤ i → nd i j = m.nodes i j) := by
  induction n with
  | zero =>
    refine ⟨m.nodes, by simp [nodeRowLog], ?_, ?_⟩
    · intro ix h; omega
    · intro i j _; rfl
  | succ k ih =>
    obtain ⟨nd, heq, hin, hout⟩ := ih
    refine ⟨setGrid nd k iy ((g.points.length + k + 1 : Nat) : Int), ?_, ?_, ?_⟩
    · rw [List.range_succ, List.foldl_append, heq]
      simp only [List.foldl_cons, List.foldl_nil, nodeStep, addPoint]
      simp only [Prod.mk.injEq]
      refine ⟨?_, ?_⟩
      · have hv : ((g.points ++ nodeRowLog m iy k).length : Int) + 1 =
            ((g.points.length + k + 1 : Nat) : Int) := by
          rw [List.length_append, length_nodeRowLog]
          push_cast
          ring
        rw [hv]
      · have hev : nodeRowLog m iy (k + 1) = nodeRowLog m iy k ++ [nodeEvt m iy k] := by
          simp [nodeRowLog, List.range_succ]
        rw [hev, ← List.append_assoc]
        rfl
    · intro ix h
      rcases Nat.lt_succ_iff_lt_or_eq.mp h with h' | h'
      · rw [setGrid]
        rw [if_neg (by omega)]
        exact hin ix h'
      · subst h'
        rw [setGrid, if_pos ⟨rfl, rfl⟩]
    · intro i j hj
      rw [setGrid]
      rw [if_neg (by omega)]
      exact hout i j (by omega)

/-- The full node loop: `R*C` points appended in row-major (`iy` outer) order,
`nodes[ix, iy]` holding tag `iy*C + ix + 1` offset by the pre-existing point
count. -/
theorem nodesLoop_spec (m : RectMesh) (g : GmshState) (C R : Nat) :
    ∃ nd : Nat → Nat → Int,
      (List.range R).foldl
        (fun s iy => (List.range C).foldl (fun s ix => nodeStep s iy ix) s)
        (m, g) =
        ({ m with nodes := nd },
         { g with points := g.points ++ nodeLog m R C }) ∧
      (∀ ix iy, ix < C → iy < R →
        nd ix iy = ((g.points.length + iy * C + ix + 1 : Nat) : Int)) ∧
      (∀ i j, R ≤ j ∨ C ≤ i → nd i j = m.nodes i j) := by
  induction R with
  | zero =>
    refine ⟨m.nodes, by simp [nodeLog], ?_, ?_⟩
    · intro ix iy _ h; omega
    · intro i j _; rfl
  | succ k ih =>
    obtain ⟨nd, heq, hin, hout⟩ := ih
    rw [List.range_succ, List.foldl_append, heq]
    simp only [List.foldl_cons, List.foldl_nil]
    obtain ⟨nd', heq', hin', hout'⟩ :=
      nodesRow_spec { m with nodes := nd }
        { g with points := g.points ++ nodeLog m k C } k C
    refine ⟨nd', ?_, ?_, ?_⟩
    · rw [heq']
      simp only [Prod.mk.injEq]
      refine ⟨trivial, ?_⟩
      have hrow : nodeRowLog { m with nodes := nd } k C = nodeRowLog m k C := rfl
      have hlog : nodeLog m (k + 1) C = nodeLog m k C ++ nodeRowLog m k C := by
        rw [nodeLog, List.range_succ, List.flatMap_append]
        simp [nodeLog]
      rw [hrow, hlog, ← List.append_assoc]
    · intro ix iy hx hy
      rcases Nat.lt_succ_iff_lt_or_eq.mp hy with h' | h'
      · rw [hout' ix iy (Or.inl (by omega))]
        exact hin ix iy hx h'
      · subst h'
        rw [hin' ix hx]
        congr 1
        rw [List.length_append, length_nodeLog]
    · intro i j hj
      rw [hout' i j (by omega)]
      exact hout i j (by omega)

/-- Phase `generate_nodes` characterized: `(ny+1)*(nx+1)` point events appended to
the log, the grid tags in closed form, all other state untouched. -/
theorem generate_nodes_spec (m : RectMesh) (g : GmshState) :
    ∃ nd : Nat → Nat → Int,
      generate_nodes m g =
        ({ m with nodes := nd },
         { g with points := g.points ++ nodeLog m (m.ny + 1) (m.nx + 1) }) ∧
      (∀ ix iy, ix ≤ m.nx → iy ≤ m.ny →
        nd ix iy = ((g.points.length + iy * (m.nx + 1) + ix + 1 : Nat) : Int)) := by
  obtain ⟨nd, heq, hin, _⟩ := nodesLoop_spec m g (m.nx + 1) (m.ny + 1)
  exact ⟨nd, heq, fun ix iy hx hy => hin ix iy (by omega) (by omega)⟩

end EasyGmsh

namespace EasyGmsh

/-! ## Loop characterization: `generate_lines` -/

/-- The x-line event for grid position `(ix, iy)`. -/
def linexEvt (m : RectMesh) (iy ix : Nat) : Int × Int :=
  (m.nodes ix iy, m.nodes (ix + 1) iy)

/-- The x-line events of one `iy` row, in `ix` order. -/
def linexRowLog (m : RectMesh) (iy C : Nat) : List (Int × Int) :=
  (List.range C).map (linexEvt m iy)

/-- All x-line events, rows in `iy` order. -/
def linexLog (m : RectMesh) (R C : Nat) : List (Int × Int) :=
  (List.range R).flatMap (fun iy => linexRowLog m iy C)

/-- The y-line event for grid position `(ix, iy)`. -/
def lineyEvt (m : RectMesh) (ix iy : Nat) : Int × Int :=
  (m.nodes ix iy, m.nodes ix (iy + 1))

/-- The y-line events of one `ix` column, in `iy` order. -/
def lineyColLog (m : RectMesh) (ix C : Nat) : List (Int × Int) :=
  (List.range C).map (lineyEvt m ix)

/-- All y-line events, columns in `ix` order. -/
def lineyLog (m : RectMesh) (R C : Nat) : List (Int × Int) :=
  (List.range R).flatMap (fun ix => lineyColLog m ix C)

theorem length_linexRowLog (m : RectMesh) (iy C : Nat) :
    (linexRowLog m iy C).length = C := by
  simp [linexRowLog]

theorem length_linexLog (m : RectMesh) (R C : Nat) :
    (linexLog m R C).length = R * C := by
  induction R with
  | zero => simp [linexLog]
  | succ k ih =>
    rw [linexLog, List.range_succ, List.flatMap_append] at *
    simp only [List.flatMap_cons, List.flatMap_nil, List.append_nil,
      List.length_append, linexLog] at *
    rw [ih, length_linexRowLog]
    ring

theorem length_lineyColLog (m : RectMesh) (ix C : Nat) :
    (lineyColLog m ix C).length = C := by
  simp [lineyColLog]

theorem length_lineyLog (m : RectMesh) (R C : Nat) :
    (lineyLog m R C).length = R * C := by
  induction R with
  | zero => simp [lineyLog]
  | succ k ih =>
    rw [lineyLog, List.range_succ, List.flatMap_append] at *
    simp only [List.flatMap_cons, List.flatMap_nil, List.append_nil,
      List.length_append, lineyLog] at *
    rw [ih, length_lineyColLog]
    ring

/-- One `iy` row of the x-line loop. -/
theorem linexRow_spec (m : RectMesh) (g : GmshState) (iy n : Nat) :
    ∃ lx : Nat → Nat → Int,
      (List.range n).foldl (fun s ix => linexStep s iy ix) (m, g) =
        ({ m with linex := lx },
         { g with lines := g.lines ++ linexRowLog m iy n }) ∧
      (∀ ix, ix < n → lx ix iy = ((g.lines.length + ix + 1 : Nat) : Int)) ∧
      (∀ i j, j ≠ iy ∨ n ≤ i → lx i j = m.linex i j) := by
  induction n with
  | zero =>
    refine ⟨m.linex, by simp [linexRowLog], ?_, ?_⟩
    · intro ix h; omega
    · intro i j _; rfl
  | succ k ih =>
    obtain ⟨lx, heq, hin, hout⟩ := ih
    refine ⟨setGrid lx k iy ((g.lines.length + k + 1 : Nat) : Int), ?_, ?_, ?_⟩
    · rw [List.range_succ, List.foldl_append, heq]
      simp only [List.foldl_cons, List.foldl_nil, linexStep, addLine]
      simp only [Prod.mk.injEq]
      refine ⟨?_, ?_⟩
      · have hv : ((g.lines ++ linexRowLog m iy k).length : Int) + 1 =
            ((g.lines.length + k + 1 : Nat) : Int) := by
          rw [List.length_append, length_linexRowLog]
          push_cast
          ring
        rw [hv]
      · have hev : linexRowLog m iy (k + 1) = linexRowLog m iy k ++ [linexEvt m iy k] := by
          simp [linexRowLog, List.range_succ]
        rw [hev, ← List.append_assoc]
        rfl
    · intro ix h
      rcases Nat.lt_succ_iff_lt_or_eq.mp h with h' | h'
      · rw [setGrid, if_neg (by omega)]
        exact hin ix h'
      · subst h'
        rw [setGrid, if_pos ⟨rfl, rfl⟩]
    · intro i j hj
      rw [setGrid, if_neg (by omega)]
      exact hout i j (by omega)

/-- The full x-line loop over `R` rows of `C` cells. -/
theorem linexLoop_spec (m : RectMesh) (g : GmshState) (C R : Nat) :
    ∃ lx : Nat → Nat → Int,
      (List.range R).foldl
        (fun s iy => (List.range C).foldl (fun s ix => linexStep s iy ix) s)
        (m, g) =
        ({ m with linex := lx },
         { g with lines := g.lines ++ linexLog m R C }) ∧
      (∀ ix iy, ix < C → iy < R →
        lx ix iy = ((g.lines.length + iy * C + ix + 1 : Nat) : Int)) ∧
      (∀ i j, R ≤ j ∨ C ≤ i → lx i j = m.linex i j) := by
  induction R with
  | zero =>
    refine ⟨m.linex, by simp [linexLog], ?_, ?_⟩
    · intro ix iy _ h; omega
    · intro i j _; rfl
  | succ k ih =>
    obtain ⟨lx, heq, hin, hout⟩ := ih
    rw [List.range_succ, List.foldl_append, heq]
    simp only [List.foldl_cons, List.foldl_nil]
    obtain ⟨lx', heq', hin', hout'⟩ :=
      linexRow_spec { m with linex := lx }
        { g with lines := g.lines ++ linexLog m k C } k C
    refine ⟨lx', ?_, ?_, ?_⟩
    · rw [heq']
      simp only [Prod.mk.injEq]
      refine ⟨trivial, ?_⟩
      have hrow : linexRowLog { m with linex := lx } k C = linexRowLog m k C := rfl
      have hlog : linexLog m (k + 1) C = linexLog m k C ++ linexRowLog m k C := by
        rw [linexLog, List.range_succ, List.flatMap_append]
        simp [linexLog]
      rw [hrow, hlog, ← List.append_assoc]
    · intro ix iy hx hy
      rcases Nat.lt_succ_iff_lt_or_eq.mp hy with h' | h'
      · rw [hout' ix iy (Or.inl (by omega))]
        exact hin ix iy hx h'
      · subst h'
        rw [hin' ix hx]
        congr 1
        rw [List.length_append, length_linexLog]
    · intro i j hj
      rw [hout' i j (by omega)]
      exact hout i j (by omega)

/-- One `ix` column of the y-line loop. -/
theorem lineyCol_spec (m : RectMesh) (g : GmshState) (ix n : Nat) :
    ∃ ly : Nat → Nat → Int,
      (List.range n).foldl (fun s iy => lineyStep s ix iy) (m, g) =
        ({ m with liney := ly },
         { g with lines := g.lines ++ lineyColLog m ix n }) ∧
      (∀ iy, iy < n → ly ix iy = ((g.lines.length + iy + 1 : Nat) : Int)) ∧
      (∀ i j, i ≠ ix ∨ n ≤ j → ly i j = m.liney i j) := by
  induction n with
  | zero =>
    refine ⟨m.liney, by simp [lineyColLog], ?_, ?_⟩
    · intro iy h; omega
    · intro i j _; rfl
  | succ k ih =>
    obtain ⟨ly, heq, hin, hout⟩ := ih
    refine ⟨setGrid ly ix k ((g.lines.length + k + 1 : Nat) : Int), ?_, ?_, ?_⟩
    · rw [List.range_succ, List.foldl_append, heq]
      simp only [List.foldl_cons, List.foldl_nil, lineyStep, addLine]
      simp only [Prod.mk.injEq]
      refine ⟨?_, ?_⟩
      · have hv : ((g.lines ++ lineyColLog m ix k).length : Int) + 1 =
            ((g.lines.length + k + 1 : Nat) : Int) := by
          rw [List.length_append, length_lineyColLog]
          push_cast
          ring
        rw [hv]
      · have hev : lineyColLog m ix (k + 1) = lineyColLog m ix k ++ [lineyEvt m ix k] := by
          simp [lineyColLog, List.range_succ]
        rw [hev, ← List.append_assoc]
        rfl
    · intro iy h
      rcases Nat.lt_succ_iff_lt_or_eq.mp h with h' | h'
      · rw [setGrid, if_neg (by omega)]
        exact hin iy h'
      · subst h'
        rw [setGrid, if_pos ⟨rfl, rfl⟩]
    · intro i j hj
      rw [setGrid, if_neg (by omega)]
      exact hout i j (by omega)

/-- The full y-line loop over `R` columns of `C` cells. -/
theorem lineyLoop_spec (m : RectMesh) (g : GmshState) (C R : Nat) :
    ∃ ly : Nat → Nat → Int,
      (List.range R).foldl
        (fun s ix => (List.range C).foldl (fun s iy => lineyStep s ix iy) s)
        (m, g) =
        ({ m with liney := ly },
         { g with lines := g.lines ++ lineyLog m R C }) ∧
      (∀ ix iy, ix < R → iy < C →
        ly ix iy = ((g.lines.length + ix * C + iy + 1 : Nat) : Int)) ∧
      (∀ i j, R ≤ i ∨ C ≤ j → ly i j = m.liney i j) := by
  induction R with
  | zero =>
    refine ⟨m.liney, by simp [lineyLog], ?_, ?_⟩
    · intro ix iy h _; omega
    · intro i j _; rfl
  | succ k ih =>
    obtain ⟨ly, heq, hin, hout⟩ := ih
    rw [List.range_succ, List.foldl_append, heq]
    simp only [List.foldl_cons, List.foldl_nil]
    obtain ⟨ly', heq', hin', hout'⟩ :=
      lineyCol_spec { m with liney := ly }
        { g with lines := g.lines ++ lineyLog m k C } k C
    refine ⟨ly', ?_, ?_, ?_⟩
    · rw [heq']
      simp only [Prod.mk.injEq]
      refine ⟨trivial, ?_⟩
      have hcol : lineyColLog { m with liney := ly } k C = lineyColLog m k C := rfl
      have hlog : lineyLog m (k + 1) C = lineyLog m k C ++ lineyColLog m k C := by
        rw [lineyLog, List.range_succ, List.flatMap_append]
        simp [lineyLog]
      rw [hcol, hlog, ← List.append_assoc]
    · intro ix iy hx hy
      rcases Nat.lt_succ_iff_lt_or_eq.mp hx with h' | h'
      · rw [hout' ix iy (Or.inl (by omega))]
        exact hin ix iy h' hy
      · subst h'
        rw [hin' iy hy]
        congr 1
        rw [List.length_append, length_lineyLog]
    · intro i j hj
      rw [hout' i j (by omega)]
      exact hout i j (by omega)

/-- Phase `generate_lines` characterized: first all x-lines (`iy` outer), then all
y-lines (`ix` outer), appended to the line log; both grids in closed form. -/
theorem generate_lines_spec (m : RectMesh) (g : GmshState) :
    ∃ lx ly : Nat → Nat → Int,
      generate_lines m g =
        ({ m with linex := lx, liney := ly },
         { g with lines := (g.lines ++ linexLog m (m.ny + 1) m.nx) ++
                           lineyLog m (m.nx + 1) m.ny }) ∧
      (∀ ix iy, ix < m.nx → iy ≤ m.ny →
        lx ix iy = ((g.lines.length + iy * m.nx + ix + 1 : Nat) : Int)) ∧
      (∀ ix iy, ix ≤ m.nx → iy < m.ny →
        ly ix iy = ((g.lines.length + (m.ny + 1) * m.nx + ix * m.ny + iy + 1 : Nat) : Int)) := by
  obtain ⟨lx, heqx, hinx, _⟩ := linexLoop_spec m g m.nx (m.ny + 1)
  rw [generate_lines, heqx]
  obtain ⟨ly, heqy, hiny, _⟩ :=
    lineyLoop_spec { m with linex := lx }
      { g with lines := g.lines ++ linexLog m (m.ny + 1) m.nx } m.ny (m.nx + 1)
  have hylog : lineyLog { m with linex := lx } (m.nx + 1) m.ny =
      lineyLog m (m.nx + 1) m.ny := rfl
  rw [hylog] at heqy
  refine ⟨lx, ly, ?_, ?_, ?_⟩
  · rw [heqy]
  · intro ix iy hx hy
    exact hinx ix iy hx (by omega)
  · intro ix iy hx hy
    rw [hiny ix iy (by omega) hy]
    congr 1
    rw [List.length_append, length_linexLog]

end EasyGmsh

namespace EasyGmsh

/-! ## Loop characterization: `generate_surfaces` -/

/-- Row-major event list: rows `0..R-1` of `C` entries each. -/
def rowMajor {α : Type} (f : Nat → Nat → α) (R C : Nat) : List α :=
  (List.range R).flatMap (fun r => (List.range C).map (f r))

theorem length_rowMajor {α : Type} (f : Nat → Nat → α) (R C : Nat) :
    (rowMajor f R C).length = R * C := by
  induction R with
  | zero => simp [rowMajor]
  | succ k ih =>
    rw [rowMajor, List.range_succ, List.flatMap_append] at *
    simp only [List.flatMap_cons, List.flatMap_nil, List.append_nil,
      List.length_append, rowMajor] at *
    rw [ih]
    simp
    ring

theorem rowMajor_succ {α : Type} (f : Nat → Nat → α) (R C : Nat) :
    rowMajor f (R + 1) C = rowMajor f R C ++ (List.range C).map (f R) := by
  rw [rowMajor, List.range_succ, List.flatMap_append]
  simp [rowMajor]

/-- Indexed access into a row-major event list. -/
theorem getElem_rowMajor {α : Type} (f : Nat → Nat → α) (R C iy ix : Nat)
    (hiy : iy < R) (hix : ix < C) :
    (rowMajor f R C)[iy * C + ix]? = some (f iy ix) := by
  induction R with
  | zero => omega
  | succ k ih =>
    rw [rowMajor_succ]
    rcases Nat.lt_succ_iff_lt_or_eq.mp hiy with h' | h'
    · rw [List.getElem?_append]
      rw [if_pos]
      · exact ih h'
      · rw [length_rowMajor]
        calc iy * C + ix < iy * C + C := by omega
          _ = (iy + 1) * C := by ring
          _ ≤ k * C := Nat.mul_le_mul_right C (by omega)
    · subst h'
      rw [List.getElem?_append_right (by rw [length_rowMajor]; omega)]
      rw [length_rowMajor, Nat.add_sub_cancel_left]
      rw [List.getElem?_map]
      simp [hix]

/-- The signed boundary loop the code builds for cell `(ix, iy)`:
`[+liney[ix+1,iy], -linex[ix,iy+1], -liney[ix,iy], +linex[ix,iy]]`. -/
def surfLoopList (m : RectMesh) (iy ix : Nat) : List Int :=
  [ m.liney (ix + 1) iy,
    - m.linex ix (iy + 1),
    - m.liney ix iy,
    m.linex ix iy ]

/-- All curve-loop events of `generate_surfaces`, row-major. -/
def curveLog (m : RectMesh) (R C : Nat) : List (List Int) :=
  rowMajor (fun iy ix => surfLoopList m iy ix) R C

/-- All plane-surface events of `generate_surfaces`: each wraps the single
curve-loop tag of its cell, with `b` curve loops pre-existing. -/
def psLog (b R C : Nat) : List (List Int) :=
  rowMajor (fun iy ix => [((b + iy * C + ix + 1 : Nat) : Int)]) R C

/-- One `iy` row of the surface loop. -/
theorem surfRow_spec (m : RectMesh) (g : GmshState) (iy n : Nat) :
    ∃ cg sg : Nat → Nat → Int,
      (List.range n).foldl (fun s ix => surfStep s iy ix) (m, g) =
        ({ m with curves := cg, surfaces := sg },
         { g with
             curveLoops := g.curveLoops ++ (List.range n).map (fun ix => surfLoopList m iy ix),
             planeSurfaces := g.planeSurfaces ++
               (List.range n).map (fun ix => [((g.curveLoops.length + ix + 1 : Nat) : Int)]) }) ∧
      (∀ ix, ix < n → cg ix iy = ((g.curveLoops.length + ix + 1 : Nat) : Int) ∧
                      sg ix iy = ((g.planeSurfaces.length + ix + 1 : Nat) : Int)) ∧
      (∀ i j, j ≠ iy ∨ n ≤ i → cg i j = m.curves i j ∧ sg i j = m.surfaces i j) := by
  induction n with
  | zero =>
    refine ⟨m.curves, m.surfaces, by simp, ?_, ?_⟩
    · intro ix h; omega
    · intro i j _; exact ⟨rfl, rfl⟩
  | succ k ih =>
    obtain ⟨cg, sg, heq, hin, hout⟩ := ih
    have hv1 : ((g.curveLoops ++ (List.range k).map (fun ix => surfLoopList m iy ix)).length : Int) + 1 =
        ((g.curveLoops.length + k + 1 : Nat) : Int) := by
      rw [List.length_append, List.length_map, List.length_range]
      push_cast
      ring
    have hv2 : ((g.planeSurfaces ++ (List.range k).map
          (fun ix => [((g.curveLoops.length + ix + 1 : Nat) : Int)])).length : Int) + 1 =
        ((g.planeSurfaces.length + k + 1 : Nat) : Int) := by
      rw [List.length_append, List.length_map, List.length_range]
      push_cast
      ring
    refine ⟨setGrid cg k iy ((g.curveLoops.length + k + 1 : Nat) : Int),
            setGrid sg k iy ((g.planeSurfaces.length + k + 1 : Nat) : Int), ?_, ?_, ?_⟩
    · rw [List.range_succ, List.foldl_append, heq]
      simp only [List.foldl_cons, List.foldl_nil, surfStep, addCurveLoop, addPlaneSurface]
      simp only [Prod.mk.injEq]
      refine ⟨?_, ?_⟩
      · rw [hv1, hv2]
      · have hset : setGrid cg k iy
            (((g.curveLoops ++ (List.range k).map (fun ix => surfLoopList m iy ix)).length : Int) + 1) k iy =
            (((g.curveLoops ++ (List.range k).map (fun ix => surfLoopList m iy ix)).length : Int) + 1) := by
          rw [setGrid, if_pos ⟨rfl, rfl⟩]
        rw [hset, hv1]
        rw [List.map_append, List.map_append]
        simp only [List.map_cons, List.map_nil]
        rw [← List.append_assoc, ← List.append_assoc]
        rfl
    · intro ix h
      rcases Nat.lt_succ_iff_lt_or_eq.mp h with h' | h'
      · constructor
        · rw [setGrid, if_neg (by omega)]
          exact (hin ix h').1
        · rw [setGrid, if_neg (by omega)]
          exact (hin ix h').2
      · subst h'
        constructor
        · rw [setGrid, if_pos ⟨rfl, rfl⟩]
        · rw [setGrid, if_pos ⟨rfl, rfl⟩]
    · intro i j hj
      constructor
      · rw [setGrid, if_neg (by omega)]
        exact (hout i j (by omega)).1
      · rw [setGrid, if_neg (by omega)]
        exact (hout i j (by omega)).2

/-- The full surface loop over `R` rows of `C` cells. -/
theorem surfLoop_spec (m : RectMesh) (g : GmshState) (C R : Nat) :
    ∃ cg sg : Nat → Nat → Int,
      (List.range R).foldl
        (fun s iy => (List.range C).foldl (fun s ix => surfStep s iy ix) s)
        (m, g) =
        ({ m with curves := cg, surfaces := sg },
         { g with
             curveLoops := g.curveLoops ++ curveLog m R C,
             planeSurfaces := g.planeSurfaces ++ psLog g.curveLoops.length R C }) ∧
      (∀ ix iy, ix < C → iy < R →
        cg ix iy = ((g.curveLoops.length + iy * C + ix + 1 : Nat) : Int) ∧
        sg ix iy = ((g.planeSurfaces.length + iy * C + ix + 1 : Nat) : Int)) ∧
      (∀ i j, R ≤ j ∨ C ≤ i → cg i j = m.curves i j ∧ sg i j = m.surfaces i j) := by
  induction R with
  | zero =>
    refine ⟨m.curves, m.surfaces, by simp [curveLog, psLog, rowMajor], ?_, ?_⟩
    · intro ix iy _ h; omega
    · intro i j _; exact ⟨rfl, rfl⟩
  | succ k ih =>
    obtain ⟨cg, sg, heq, hin, hout⟩ := ih
    rw [List.range_succ, List.foldl_append, heq]
    simp only [List.foldl_cons, List.foldl_nil]
    obtain ⟨cg', sg', heq', hin', hout'⟩ :=
      surfRow_spec { m with curves := cg, surfaces := sg }
        { g with curveLoops := g.curveLoops ++ curveLog m k C,
                 planeSurfaces := g.planeSurfaces ++ psLog g.curveLoops.length k C } k C
    refine ⟨cg', sg', ?_, ?_, ?_⟩
    · rw [heq']
      simp only [Prod.mk.injEq]
      refine ⟨trivial, ?_⟩
      have hrow : (fun ix => surfLoopList { m with curves := cg, surfaces := sg } k ix) =
          (fun ix => surfLoopList m k ix) := rfl
      have hlen1 : (g.curveLoops ++ curveLog m k C).length = g.curveLoops.length + k * C := by
        rw [List.length_append, curveLog, length_rowMajor]
      have hc : curveLog m (k + 1) C = curveLog m k C ++ (List.range C).map (fun ix => surfLoopList m k ix) := by
        rw [curveLog, rowMajor_succ]
        rfl
      have hp : psLog g.curveLoops.length (k + 1) C = psLog g.curveLoops.length k C ++
          (List.range C).map (fun ix => [(((g.curveLoops ++ curveLog m k C).length + ix + 1 : Nat) : Int)]) := by
        rw [psLog, rowMajor_succ, hlen1]
        rfl
      rw [hrow, hc, hp, ← List.append_assoc, ← List.append_assoc]
    · intro ix iy hx hy
      rcases Nat.lt_succ_iff_lt_or_eq.mp hy with h' | h'
      · have h1 := hout' ix iy (Or.inl (by omega))
        rw [h1.1, h1.2]
        exact hin ix iy hx h'
      · subst h'
        have h1 := hin' ix hx
        constructor
        · rw [h1.1]
          congr 1
          rw [List.length_append, curveLog, length_rowMajor]
        · rw [h1.2]
          congr 1
          rw [List.length_append, psLog, length_rowMajor]
    · intro i j hj
      have h1 := hout' i j (by omega)
      have h2 := hout i j (by omega)
      rw [h1.1, h1.2]
      exact h2

/-- Phase `generate_surfaces` characterized. -/
theorem generate_surfaces_spec (m : RectMesh) (g : GmshState) :
    ∃ cg sg : Nat → Nat → Int,
      generate_surfaces m g =
        ({ m with curves := cg, surfaces := sg },
         { g with
             curveLoops := g.curveLoops ++ curveLog m m.ny m.nx,
             planeSurfaces := g.planeSurfaces ++ psLog g.curveLoops.length m.ny m.nx }) ∧
      (∀ ix iy, ix < m.nx → iy < m.ny →
        cg ix iy = ((g.curveLoops.length + iy * m.nx + ix + 1 : Nat) : Int) ∧
        sg ix iy = ((g.planeSurfaces.length + iy * m.nx + ix + 1 : Nat) : Int)) := by
  obtain ⟨cg, sg, heq, hin, _⟩ := surfLoop_spec m g m.nx m.ny
  exact ⟨cg, sg, heq, hin⟩

end EasyGmsh

namespace EasyGmsh

/-! ## The composed node/line/surface pipeline -/

/-- Master characterization of `builtMesh`: all entity logs and grid closed
forms for a fresh session.  Node `(ix,iy)` has tag `iy*(nx+1)+ix+1`; x-line
`(ix,iy)` has tag `iy*nx+ix+1`; y-line `(ix,iy)` has tag
`(ny+1)*nx + ix*ny + iy + 1`; the curve loop and plane surface of cell
`(ix,iy)` both have tag `iy*nx+ix+1`, the loop holding exactly the four
signed edges and the surface exactly its loop. -/
theorem builtMesh_spec (m : RectMesh) (sz : Int) :
    ∃ (nd lx ly cg sg : Nat → Nat → Int) (G : GmshState),
      builtMesh m sz =
        ({ m with mesh_size := sz, nodes := nd, linex := lx, liney := ly,
                  curves := cg, surfaces := sg }, G) ∧
      G.points.length = (m.ny + 1) * (m.nx + 1) ∧
      G.lines.length = (m.ny + 1) * m.nx + (m.nx + 1) * m.ny ∧
      G.curveLoops.length = m.ny * m.nx ∧
      G.planeSurfaces.length = m.ny * m.nx ∧
      G.physicalGroups = [] ∧
      (∀ ix iy, ix ≤ m.nx → iy ≤ m.ny →
        nd ix iy = ((iy * (m.nx + 1) + ix + 1 : Nat) : Int)) ∧
      (∀ ix iy, ix < m.nx → iy ≤ m.ny →
        lx ix iy = ((iy * m.nx + ix + 1 : Nat) : Int)) ∧
      (∀ ix iy, ix ≤ m.nx → iy < m.ny →
        ly ix iy = (((m.ny + 1) * m.nx + ix * m.ny + iy + 1 : Nat) : Int)) ∧
      (∀ ix iy, ix < m.nx → iy < m.ny →
        cg ix iy = ((iy * m.nx + ix + 1 : Nat) : Int)) ∧
      (∀ ix iy, ix < m.nx → iy < m.ny →
        sg ix iy = ((iy * m.nx + ix + 1 : Nat) : Int)) ∧
      (∀ ix iy, ix < m.nx → iy < m.ny →
        G.curveLoops[iy * m.nx + ix]? =
          some [ly (ix + 1) iy, - lx ix (iy + 1), - ly ix iy, lx ix iy]) ∧
      (∀ ix iy, ix < m.nx → iy < m.ny →
        G.planeSurfaces[iy * m.nx + ix]? = some [cg ix iy]) := by
  obtain ⟨nd, heqN, hinN⟩ :=
    generate_nodes_spec { m with mesh_size := sz } GmshState.empty
  have e1 : generate_nodes { m with mesh_size := sz } GmshState.empty =
      ({ m with mesh_size := sz, nodes := nd },
       { points := nodeLog { m with mesh_size := sz } (m.ny + 1) (m.nx + 1),
         lines := [], curveLoops := [], planeSurfaces := [], physicalGroups := [] }) :=
    heqN
  obtain ⟨lx, ly, heqL, hinLx, hinLy⟩ :=
    generate_lines_spec { m with mesh_size := sz, nodes := nd }
      { points := nodeLog { m with mesh_size := sz } (m.ny + 1) (m.nx + 1),
        lines := [], curveLoops := [], planeSurfaces := [], physicalGroups := [] }
  have e2 : generate_lines { m with mesh_size := sz, nodes := nd }
      { points := nodeLog { m with mesh_size := sz } (m.ny + 1) (m.nx + 1),
        lines := [], curveLoops := [], planeSurfaces := [], physicalGroups := [] } =
      ({ m with mesh_size := sz, nodes := nd, linex := lx, liney := ly },
       { points := nodeLog { m with mesh_size := sz } (m.ny + 1) (m.nx + 1),
         lines := linexLog { m with mesh_size := sz, nodes := nd } (m.ny + 1) m.nx ++
                  lineyLog { m with mesh_size := sz, nodes := nd } (m.nx + 1) m.ny,
         curveLoops := [], planeSurfaces := [], physicalGroups := [] }) :=
    heqL
  obtain ⟨cg, sg, heqS, hinS⟩ :=
    generate_surfaces_spec { m with mesh_size := sz, nodes := nd, linex := lx, liney := ly }
      { points := nodeLog { m with mesh_size := sz } (m.ny + 1) (m.nx + 1),
        lines := linexLog { m with mesh_size := sz, nodes := nd } (m.ny + 1) m.nx ++
                 lineyLog { m with mesh_size := sz, nodes := nd } (m.nx + 1) m.ny,
        curveLoops := [], planeSurfaces := [], physicalGroups := [] }
  have e3 : builtMesh m sz =
      ({ m with mesh_size := sz, nodes := nd, linex := lx, liney := ly,
                curves := cg, surfaces := sg },
       { points := nodeLog { m with mesh_size := sz } (m.ny + 1) (m.nx + 1),
         lines := linexLog { m with mesh_size := sz, nodes := nd } (m.ny + 1) m.nx ++
                  lineyLog { m with mesh_size := sz, nodes := nd } (m.nx + 1) m.ny,
         curveLoops := curveLog { m with mesh_size := sz, nodes := nd, linex := lx, liney := ly } m.ny m.nx,
         planeSurfaces := psLog 0 m.ny m.nx,
         physicalGroups := [] }) := by
    show (let s1 := generate_nodes { m with mesh_size := sz } GmshState.empty
          let s2 := generate_lines s1.1 s1.2
          generate_surfaces s2.1 s2.2) = _
    rw [e1]
    show generate_surfaces (generate_lines _ _).1 (generate_lines _ _).2 = _
    rw [e2]
    show generate_surfaces _ _ = _
    exact heqS
  refine ⟨nd, lx, ly, cg, sg, _, e3, ?_, ?_, ?_, ?_, rfl, ?_, ?_, ?_, ?_, ?_, ?_, ?_⟩
  · show (nodeLog { m with mesh_size := sz } (m.ny + 1) (m.nx + 1)).length = _
    rw [length_nodeLog]
  · show (linexLog { m with mesh_size := sz, nodes := nd } (m.ny + 1) m.nx ++
          lineyLog { m with mesh_size := sz, nodes := nd } (m.nx + 1) m.ny).length = _
    rw [List.length_append, length_linexLog, length_lineyLog]
  · show (curveLog { m with mesh_size := sz, nodes := nd, linex := lx, liney := ly } m.ny m.nx).length = _
    rw [curveLog, length_rowMajor]
  · show (psLog 0 m.ny m.nx).length = _
    rw [psLog, length_rowMajor]
  · intro ix iy hx hy
    rw [hinN ix iy hx hy]
    simp [RectMesh.nx, RectMesh.ny, GmshState.empty]
  · intro ix iy hx hy
    rw [hinLx ix iy hx hy]
    simp [RectMesh.nx, RectMesh.ny]
  · intro ix iy hx hy
    rw [hinLy ix iy hx hy]
    simp [RectMesh.nx, RectMesh.ny, length_linexLog]
  · intro ix iy hx hy
    rw [(hinS ix iy hx hy).1]
    simp [RectMesh.nx, RectMesh.ny]
  · intro ix iy hx hy
    rw [(hinS ix iy hx hy).2]
    simp [RectMesh.nx, RectMesh.ny]
  · intro ix iy hx hy
    show (curveLog { m with mesh_size := sz, nodes := nd, linex := lx, liney := ly } m.ny m.nx)[iy * m.nx + ix]? = _
    rw [curveLog, getElem_rowMajor _ m.ny m.nx iy ix hy hx]
    rfl
  · intro ix iy hx hy
    show (psLog 0 m.ny m.nx)[iy * m.nx + ix]? = _
    rw [psLog, getElem_rowMajor _ m.ny m.nx iy ix hy hx]
    rw [(hinS ix iy hx hy).1]
    simp [RectMesh.nx, RectMesh.ny]

end EasyGmsh

namespace EasyGmsh

/-! ## Claims C1 and C4 -/

/-- Row-major tags are injective within one grid. -/
theorem rowMajorIdx_inj (C i j i' j' : Nat) (hi : i < C) (hi' : i' < C)
    (h : j * C + i = j' * C + i') : i = i' ∧ j = j' := by
  have e1 : (j * C + i) % C = i := by
    rw [Nat.mul_comm, Nat.mul_add_mod, Nat.mod_eq_of_lt hi]
  have e2 : (j' * C + i') % C = i' := by
    rw [Nat.mul_comm, Nat.mul_add_mod, Nat.mod_eq_of_lt hi']
  have hii : i = i' := by rw [← e1, ← e2, h]
  refine ⟨hii, ?_⟩
  subst hii
  have hj : j * C = j' * C := by omega
  exact Nat.eq_of_mul_eq_mul_right (by omega) hj

/-- An x-line tag is never a y-line tag. -/
theorem linexLineyTag_ne (nx ny ix iy ix' iy' : Nat) (hix : ix < nx) (hiy : iy ≤ ny) :
    iy * nx + ix + 1 ≠ (ny + 1) * nx + ix' * ny + iy' + 1 := by
  intro h
  have h2 : (ny + 1) * nx = ny * nx + nx := by ring
  rw [h2] at h
  have h1 : iy * nx ≤ ny * nx := Nat.mul_le_mul_right nx hiy
  generalize iy * nx = a at h h1
  generalize ny * nx = b at h h1
  generalize ix' * ny = c at h
  omega

/-- C1: for every cell `(ix,iy)` with `ix < nx` and `iy < ny`, the generation
pipeline registers that cell's closed curve loop as exactly the four signed
edge handles `[+yEdge(ix+1,iy), -xEdge(ix,iy+1), -yEdge(ix,iy), +xEdge(ix,iy)]`
in that cyclic order, and registers one plane surface bounded by exactly that
loop. -/
theorem c1_cell_loop_and_surface (m0 : RectMesh) (sz : Int) (ix iy : Nat)
    (hx : ix < m0.nx) (hy : iy < m0.ny) :
    (builtMesh m0 sz).2.curveLoops[((builtMesh m0 sz).1.curves ix iy).toNat - 1]? =
      some [ (builtMesh m0 sz).1.liney (ix + 1) iy,
             - (builtMesh m0 sz).1.linex ix (iy + 1),
             - (builtMesh m0 sz).1.liney ix iy,
             (builtMesh m0 sz).1.linex ix iy ] ∧
    (builtMesh m0 sz).2.planeSurfaces[((builtMesh m0 sz).1.surfaces ix iy).toNat - 1]? =
      some [ (builtMesh m0 sz).1.curves ix iy ] := by
  obtain ⟨nd, lx, ly, cg, sg, G, heq, hP, hL, hCL, hPS, hPG,
    hnd, hlx, hly, hcg, hsg, hloops, hps⟩ := builtMesh_spec m0 sz
  rw [heq]
  show G.curveLoops[(cg ix iy).toNat - 1]? = some [ly (ix + 1) iy, - lx ix (iy + 1), - ly ix iy, lx ix iy] ∧
       G.planeSurfaces[(sg ix iy).toNat - 1]? = some [cg ix iy]
  rw [hcg ix iy hx hy, hsg ix iy hx hy]
  have ht : ((iy * m0.nx + ix + 1 : Nat) : Int).toNat - 1 = iy * m0.nx + ix := by
    rw [Int.toNat_natCast]
    omega
  rw [ht]
  refine ⟨hloops ix iy hx hy, ?_⟩
  rw [hps ix iy hx hy, hcg ix iy hx hy]

theorem c1_witness :
    0 < (RectMesh.init [0, 1] [0, 1] none none).nx ∧
    0 < (RectMesh.init [0, 1] [0, 1] none none).ny ∧
    ((builtMesh (RectMesh.init [0, 1] [0, 1] none none) 1).2.curveLoops[
        ((builtMesh (RectMesh.init [0, 1] [0, 1] none none) 1).1.curves 0 0).toNat - 1]? =
      some [ (builtMesh (RectMesh.init [0, 1] [0, 1] none none) 1).1.liney (0 + 1) 0,
             - (builtMesh (RectMesh.init [0, 1] [0, 1] none none) 1).1.linex 0 (0 + 1),
             - (builtMesh (RectMesh.init [0, 1] [0, 1] none none) 1).1.liney 0 0,
             (builtMesh (RectMesh.init [0, 1] [0, 1] none none) 1).1.linex 0 0 ] ∧
     (builtMesh (RectMesh.init [0, 1] [0, 1] none none) 1).2.planeSurfaces[
        ((builtMesh (RectMesh.init [0, 1] [0, 1] none none) 1).1.surfaces 0 0).toNat - 1]? =
      some [ (builtMesh (RectMesh.init [0, 1] [0, 1] none none) 1).1.curves 0 0 ]) :=
  ⟨by decide, by decide,
   c1_cell_loop_and_surface (RectMesh.init [0, 1] [0, 1] none none) 1 0 0
     (by decide) (by decide)⟩

/-- C4: for `nx, ny ≥ 1`, running `generate_nodes`, `generate_lines`,
`generate_surfaces` creates exactly `(nx+1)(ny+1)` points,
`nx(ny+1) + (nx+1)ny` lines and `nx*ny` plane surfaces, and the recorded
node, edge and surface tags are pairwise distinct within their kinds (and
x-line tags never collide with y-line tags). -/
theorem c4_entity_counts_unique (m0 : RectMesh) (sz : Int)
    (hx : 1 ≤ m0.nx) (hy : 1 ≤ m0.ny) :
    (builtMesh m0 sz).2.points.length = (m0.nx + 1) * (m0.ny + 1) ∧
    (builtMesh m0 sz).2.lines.length = m0.nx * (m0.ny + 1) + (m0.nx + 1) * m0.ny ∧
    (builtMesh m0 sz).2.planeSurfaces.length = m0.nx * m0.ny ∧
    (∀ ix iy ix' iy', ix ≤ m0.nx → iy ≤ m0.ny → ix' ≤ m0.nx → iy' ≤ m0.ny →
      (builtMesh m0 sz).1.nodes ix iy = (builtMesh m0 sz).1.nodes ix' iy' →
      ix = ix' ∧ iy = iy') ∧
    (∀ ix iy ix' iy', ix < m0.nx → iy ≤ m0.ny → ix' < m0.nx → iy' ≤ m0.ny →
      (builtMesh m0 sz).1.linex ix iy = (builtMesh m0 sz).1.linex ix' iy' →
      ix = ix' ∧ iy = iy') ∧
    (∀ ix iy ix' iy', ix ≤ m0.nx → iy < m0.ny → ix' ≤ m0.nx → iy' < m0.ny →
      (builtMesh m0 sz).1.liney ix iy = (builtMesh m0 sz).1.liney ix' iy' →
      ix = ix' ∧ iy = iy') ∧
    (∀ ix iy ix' iy', ix < m0.nx → iy ≤ m0.ny → ix' ≤ m0.nx → iy' < m0.ny →
      (builtMesh m0 sz).1.linex ix iy ≠ (builtMesh m0 sz).1.liney ix' iy') ∧
    (∀ ix iy ix' iy', ix < m0.nx → iy < m0.ny → ix' < m0.nx → iy' < m0.ny →
      (builtMesh m0 sz).1.surfaces ix iy = (builtMesh m0 sz).1.surfaces ix' iy' →
      ix = ix' ∧ iy = iy') := by
  obtain ⟨nd, lx, ly, cg, sg, G, heq, hP, hL, hCL, hPS, hPG,
    hnd, hlx, hly, hcg, hsg, hloops, hps⟩ := builtMesh_spec m0 sz
  rw [heq]
  show G.points.length = _ ∧ G.lines.length = _ ∧ G.planeSurfaces.length = _ ∧
    (∀ ix iy ix' iy', ix ≤ m0.nx → iy ≤ m0.ny → ix' ≤ m0.nx → iy' ≤ m0.ny →
      nd ix iy = nd ix' iy' → ix = ix' ∧ iy = iy') ∧
    (∀ ix iy ix' iy', ix < m0.nx → iy ≤ m0.ny → ix' < m0.nx → iy' ≤ m0.ny →
      lx ix iy = lx ix' iy' → ix = ix' ∧ iy = iy') ∧
    (∀ ix iy ix' iy', ix ≤ m0.nx → iy < m0.ny → ix' ≤ m0.nx → iy' < m0.ny →
      ly ix iy = ly ix' iy' → ix = ix' ∧ iy = iy') ∧
    (∀ ix iy ix' iy', ix < m0.nx → iy ≤ m0.ny → ix' ≤ m0.nx → iy' < m0.ny →
      lx ix iy ≠ ly ix' iy') ∧
    (∀ ix iy ix' iy', ix < m0.nx → iy < m0.ny → ix' < m0.nx → iy' < m0.ny →
      sg ix iy = sg ix' iy' → ix = ix' ∧ iy = iy')
  refine ⟨by rw [hP]; ring, by rw [hL]; ring, by rw [hPS]; ring, ?_, ?_, ?_, ?_, ?_⟩
  · intro ix iy ix' iy' h1 h2 h3 h4 he
    rw [hnd ix iy h1 h2, hnd ix' iy' h3 h4] at he
    have hn : iy * (m0.nx + 1) + ix + 1 = iy' * (m0.nx + 1) + ix' + 1 := by
      exact_mod_cast he
    have := rowMajorIdx_inj (m0.nx + 1) ix iy ix' iy' (by omega) (by omega) (by omega)
    exact ⟨this.1, this.2⟩
  · intro ix iy ix' iy' h1 h2 h3 h4 he
    rw [hlx ix iy h1 h2, hlx ix' iy' h3 h4] at he
    have hn : iy * m0.nx + ix + 1 = iy' * m0.nx + ix' + 1 := by exact_mod_cast he
    have := rowMajorIdx_inj m0.nx ix iy ix' iy' h1 h3 (by omega)
    exact ⟨this.1, this.2⟩
  · intro ix iy ix' iy' h1 h2 h3 h4 he
    rw [hly ix iy h1 h2, hly ix' iy' h3 h4] at he
    have hn : (m0.ny + 1) * m0.nx + ix * m0.ny + iy + 1 =
        (m0.ny + 1) * m0.nx + ix' * m0.ny + iy' + 1 := by exact_mod_cast he
    have hn2 : ix * m0.ny + iy = ix' * m0.ny + iy' := by omega
    have := rowMajorIdx_inj m0.ny iy ix iy' ix' h2 h4 (by omega)
    exact ⟨this.2, this.1⟩
  · intro ix iy ix' iy' h1 h2 h3 h4 he
    rw [hlx ix iy h1 h2, hly ix' iy' h3 h4] at he
    have hn : iy * m0.nx + ix + 1 = (m0.ny + 1) * m0.nx + ix' * m0.ny + iy' + 1 := by
      exact_mod_cast he
    exact linexLineyTag_ne m0.nx m0.ny ix iy ix' iy' h1 h2 hn
  · intro ix iy ix' iy' h1 h2 h3 h4 he
    rw [hsg ix iy h1 h2, hsg ix' iy' h3 h4] at he
    have hn : iy * m0.nx + ix + 1 = iy' * m0.nx + ix' + 1 := by exact_mod_cast he
    have := rowMajorIdx_inj m0.nx ix iy ix' iy' h1 h3 (by omega)
    exact ⟨this.1, this.2⟩

theorem c4_witness :
    1 ≤ (RectMesh.init [0, 1] [0, 1] none none).nx ∧
    1 ≤ (RectMesh.init [0, 1] [0, 1] none none).ny ∧
    (builtMesh (RectMesh.init [0, 1] [0, 1] none none) 1).2.points.length =
      ((RectMesh.init [0, 1] [0, 1] none none).nx + 1) *
      ((RectMesh.init [0, 1] [0, 1] none none).ny + 1) :=
  ⟨by decide, by decide,
   (c4_entity_counts_unique (RectMesh.init [0, 1] [0, 1] none none) 1
     (by decide) (by decide)).1⟩

end EasyGmsh

namespace EasyGmsh

/-! ## Claim C3: `resolve` pairing and broadcasting -/

theorem pyListIdx_pos (n : Nat) (i : Int) (h0 : 0 ≤ i) (h1 : i < (n : Int)) :
    pyListIdx n i = some i.toNat := by
  rw [pyListIdx, if_pos h0, if_pos h1]

theorem mapM_eq_some_map {α β : Type} (f : α → Option β) (g : α → β) (l : List α)
    (h : ∀ a ∈ l, f a = some (g a)) : l.mapM f = some (l.map g) := by
  induction l with
  | nil => rfl
  | cons a t ih =>
    rw [List.mapM_cons, h a (by simp), ih (fun b hb => h b (by simp [hb]))]
    rfl

/-- Applying `resolve` on successfully broadcast pairs reads each `(ix, iy)` from the
surface grid. -/
theorem resolve_of_pairs (m : RectMesh) (xs ys : List Int) (ps : List (Int × Int))
    (hb : broadcastPair xs ys = some ps)
    (hin : ∀ p ∈ ps, 0 ≤ p.1 ∧ p.1 < (m.nx : Int) ∧ 0 ≤ p.2 ∧ p.2 < (m.ny : Int)) :
    resolve m [xs, ys] =
      .ok (ps.map (fun p => m.surfaces p.1.toNat p.2.toNat)) := by
  rw [resolve]
  have h0 : ([xs, ys] : List (List Int)).getD 0 [] = xs := rfl
  have h1 : ([xs, ys] : List (List Int)).getD 1 [] = ys := rfl
  rw [h0, h1, hb]
  have hm : ps.mapM (fun p => do
      let i ← pyListIdx m.nx p.1
      let j ← pyListIdx m.ny p.2
      pure (m.surfaces i j)) = some (ps.map (fun p => m.surfaces p.1.toNat p.2.toNat)) := by
    apply mapM_eq_some_map
    intro p hp
    obtain ⟨ha, hb', hc, hd⟩ := hin p hp
    rw [pyListIdx_pos m.nx p.1 ha hb', pyListIdx_pos m.ny p.2 hc hd]
    rfl
  simp only [hm]

/-- A length-1 x-selection broadcasts along the y-selection. -/
theorem broadcastPair_singleX (c : Int) (ys : List Int) :
    broadcastPair [c] ys = some (ys.map (fun yv => (c, yv))) := by
  rw [broadcastPair]
  by_cases he : ([c] : List Int).length = ys.length
  · rw [if_pos he]
    obtain ⟨y, hy⟩ : ∃ y, ys = [y] := by
      cases ys with
      | nil => simp at he
      | cons y t =>
        cases t with
        | nil => exact ⟨y, rfl⟩
        | cons z u => simp at he
    subst hy
    rfl
  · rw [if_neg he, if_pos (by simp)]
    rfl

/-- Applying `resolve` with `selX = [c]` walks the y-selection in order. -/
theorem resolve_singleX (m : RectMesh) (c : Int) (ys : List Int)
    (hc0 : 0 ≤ c) (hc1 : c < (m.nx : Int))
    (hys : ∀ j ∈ ys, 0 ≤ j ∧ j < (m.ny : Int)) :
    resolve m [[c], ys] = .ok (ys.map (fun j => m.surfaces c.toNat j.toNat)) := by
  rw [resolve_of_pairs m [c] ys _ (broadcastPair_singleX c ys)]
  · rw [List.map_map]
    rfl
  · intro p hp
    simp only [List.mem_map] at hp
    obtain ⟨y, hy, hyp⟩ := hp
    obtain ⟨ha, hb'⟩ := hys y hy
    rw [← hyp]
    exact ⟨hc0, hc1, ha, hb'⟩

/-- C3: `resolve` pairs the two axis index sets positionally with numpy
broadcasting: equal-length sets are zipped elementwise (no cartesian
product); a length-1 `selX = [c]` is repeated along `selY`; in particular
`selX = [c]`, `selY = [a..b]` returns exactly the surfaces `Surface(c,i)` for
`i` in `a..b`, in the order induced by `selY` (their tags in closed form for
the freshly generated grid). -/
theorem c3_resolve_pairing (m0 : RectMesh) (sz : Int) :
    (∀ xs ys : List Int,
      (∀ i ∈ xs, 0 ≤ i ∧ i < (m0.nx : Int)) →
      (∀ j ∈ ys, 0 ≤ j ∧ j < (m0.ny : Int)) →
      xs.length = ys.length →
      resolve (builtMesh m0 sz).1 [xs, ys] =
        .ok ((xs.zip ys).map
          (fun p => (builtMesh m0 sz).1.surfaces p.1.toNat p.2.toNat))) ∧
    (∀ (c : Int) (ys : List Int), 0 ≤ c → c < (m0.nx : Int) →
      (∀ j ∈ ys, 0 ≤ j ∧ j < (m0.ny : Int)) →
      resolve (builtMesh m0 sz).1 [[c], ys] =
        .ok (ys.map (fun j => (builtMesh m0 sz).1.surfaces c.toNat j.toNat))) ∧
    (∀ c a b : Nat, c < m0.nx → b < m0.ny → a ≤ b →
      resolve (builtMesh m0 sz).1
        [[(c : Int)], (List.range' a (b + 1 - a)).map (fun i : Nat => (i : Int))] =
        .ok ((List.range' a (b + 1 - a)).map
          (fun i : Nat => ((i * m0.nx + c + 1 : Nat) : Int)))) := by
  obtain ⟨nd, lx, ly, cg, sg, G, heq, hP, hL, hCL, hPS, hPG,
    hnd, hlx, hly, hcg, hsg, hloops, hps⟩ := builtMesh_spec m0 sz
  have hnx : ((builtMesh m0 sz).1.nx : Int) = (m0.nx : Int) := by
    rw [heq]
    rfl
  have hny : ((builtMesh m0 sz).1.ny : Int) = (m0.ny : Int) := by
    rw [heq]
    rfl
  refine ⟨?_, ?_, ?_⟩
  · intro xs ys hxs hys hlen
    apply resolve_of_pairs
    · rw [broadcastPair, if_pos hlen]
    · intro p hp
      obtain ⟨h1, h2⟩ := List.mem_zip (a := p.1) (b := p.2) (by simpa using hp)
      obtain ⟨ha, hb⟩ := hxs p.1 h1
      obtain ⟨hc, hd⟩ := hys p.2 h2
      rw [hnx, hny]
      exact ⟨ha, hb, hc, hd⟩
  · intro c ys hc0 hc1 hys
    apply resolve_singleX
    · exact hc0
    · rw [hnx]; exact hc1
    · intro j hj
      rw [hny]
      exact hys j hj
  · intro c a b hcx hby hab
    have hysR : ∀ j ∈ (List.range' a (b + 1 - a)).map (fun i : Nat => (i : Int)),
        0 ≤ j ∧ j < (((builtMesh m0 sz).1.ny : Nat) : Int) := by
      intro j hj
      rw [List.mem_map] at hj
      obtain ⟨i, hi, hji⟩ := hj
      rw [List.mem_range'] at hi
      obtain ⟨t, ht, hti⟩ := hi
      subst hji
      rw [hny]
      exact ⟨Int.natCast_nonneg i, by exact_mod_cast (by omega : i < m0.ny)⟩
    have hres := resolve_singleX (builtMesh m0 sz).1 (c : Int)
      ((List.range' a (b + 1 - a)).map (fun i : Nat => (i : Int)))
      (Int.natCast_nonneg c) (by rw [hnx]; exact_mod_cast hcx) hysR
    rw [hres]
    congr 1
    rw [List.map_map]
    apply List.map_congr_left
    intro i hi
    rw [List.mem_range'] at hi
    obtain ⟨t, ht, hti⟩ := hi
    have hiy : i < m0.ny := by omega
    show (builtMesh m0 sz).1.surfaces ((c : Int)).toNat (((i : Nat) : Int)).toNat = _
    rw [Int.toNat_natCast, Int.toNat_natCast, heq]
    show sg c i = _
    exact hsg c i hcx hiy

theorem c3_witness :
    ((1 : Nat) < (RectMesh.init [0, 1, 2] [0, 1, 2] none none).nx ∧
     (1 : Nat) < (RectMesh.init [0, 1, 2] [0, 1, 2] none none).ny) ∧
    resolve (builtMesh (RectMesh.init [0, 1, 2] [0, 1, 2] none none) 1).1
      [[(1 : Int)], (List.range' 0 (1 + 1 - 0)).map (fun i : Nat => (i : Int))] =
      .ok ((List.range' 0 (1 + 1 - 0)).map
        (fun i : Nat => ((i * (RectMesh.init [0, 1, 2] [0, 1, 2] none none).nx + 1 + 1 : Nat) : Int))) :=
  ⟨⟨by decide, by decide⟩,
   (c3_resolve_pairing (RectMesh.init [0, 1, 2] [0, 1, 2] none none) 1).2.2 1 0 1
     (by decide) (by decide) (by decide)⟩

end EasyGmsh

namespace EasyGmsh

/-! ## Claims C5, C9, C10: the selection algebra -/

theorem mem_rangeInt (n : Nat) (a : Int) :
    a ∈ (List.range n).map (fun i : Nat => (i : Int)) ↔ 0 ≤ a ∧ a < (n : Int) := by
  rw [List.mem_map]
  constructor
  · rintro ⟨i, hi, rfl⟩
    rw [List.mem_range] at hi
    exact ⟨Int.natCast_nonneg i, by exact_mod_cast hi⟩
  · rintro ⟨h0, h1⟩
    refine ⟨a.toNat, ?_, Int.toNat_of_nonneg h0⟩
    rw [List.mem_range]
    omega

theorem nodup_rangeInt (n : Nat) :
    ((List.range n).map (fun i : Nat => (i : Int))).Nodup :=
  (List.nodup_range n).map Nat.cast_injective

theorem sorted_rangeInt (n : Nat) :
    List.Sorted (fun u v : Int => u ≤ v) ((List.range n).map (fun i : Nat => (i : Int))) := by
  have h := List.pairwise_lt_range n
  exact List.Pairwise.map (R := fun a b : Nat => a < b)
    (S := fun u v : Int => u ≤ v) (fun i : Nat => (i : Int))
    (fun a b hab => by
      show ((a : Nat) : Int) ≤ ((b : Nat) : Int)
      have hab' : a < b := hab
      exact_mod_cast Nat.le_of_lt hab') h

/-- The union `np.sort(np.unique(Z))`, characterized: it is the unique sorted
duplicate-free list with `Z`'s members. -/
theorem sortUnique_eq (Z target : List Int)
    (hnd : target.Nodup) (hsort : List.Sorted (fun u v : Int => u ≤ v) target)
    (hmem : ∀ x : Int, x ∈ Z ↔ x ∈ target) :
    (List.insertionSort (fun u v : Int => u ≤ v) Z).dedup = target := by
  apply List.eq_of_perm_of_sorted (r := fun u v : Int => u ≤ v)
  · rw [List.perm_ext_iff_of_nodup (List.nodup_dedup _) hnd]
    intro a
    rw [List.mem_dedup, (List.perm_insertionSort (fun u v : Int => u ≤ v) Z).mem_iff]
    exact hmem a
  · exact List.Pairwise.sublist (List.dedup_sublist _)
      (List.sorted_insertionSort (fun u v : Int => u ≤ v) Z)
  · exact hsort

/-- C5: for an in-range bound `b` on either axis, joining `greater(d, b)` with
`less(d, b-1)` over the full default selection reconstructs the full default
selection: the filtered axis is rebuilt as the full index range and the other
axis stays the full range. -/
theorem c5_partition_law (m : RectMesh) (b : Int) :
    (0 ≤ b → b < (m.nx : Int) →
      join (greater m 0 b none) (less m 0 (b - 1) none) = defaultSelected m) ∧
    (0 ≤ b → b < (m.ny : Int) →
      join (greater m 1 b none) (less m 1 (b - 1) none) = defaultSelected m) := by
  constructor
  · intro h0 h1
    show [(List.insertionSort (fun u v : Int => u ≤ v)
            ((((List.range m.nx).map (fun i : Nat => (i : Int))).filter
                (fun i => decide (b ≤ i))) ++
             (((List.range m.nx).map (fun i : Nat => (i : Int))).filter
                (fun i => decide (i ≤ b - 1))))).dedup,
          (List.insertionSort (fun u v : Int => u ≤ v)
            (((List.range m.ny).map (fun i : Nat => (i : Int))) ++
             ((List.range m.ny).map (fun i : Nat => (i : Int))))).dedup]
        = defaultSelected m
    rw [sortUnique_eq _ ((List.range m.nx).map (fun i : Nat => (i : Int)))
          (nodup_rangeInt m.nx) (sorted_rangeInt m.nx) ?memx,
        sortUnique_eq _ ((List.range m.ny).map (fun i : Nat => (i : Int)))
          (nodup_rangeInt m.ny) (sorted_rangeInt m.ny) ?memy]
    case memx =>
      intro x
      rw [List.mem_append, List.mem_filter, List.mem_filter, mem_rangeInt]
      simp only [decide_eq_true_eq, mem_rangeInt]
      omega
    case memy =>
      intro x
      rw [List.mem_append]
      tauto
    rfl
  · intro h0 h1
    show [(List.insertionSort (fun u v : Int => u ≤ v)
            (((List.range m.nx).map (fun i : Nat => (i : Int))) ++
             ((List.range m.nx).map (fun i : Nat => (i : Int))))).dedup,
          (List.insertionSort (fun u v : Int => u ≤ v)
            ((((List.range m.ny).map (fun i : Nat => (i : Int))).filter
                (fun i => decide (b ≤ i))) ++
             (((List.range m.ny).map (fun i : Nat => (i : Int))).filter
                (fun i => decide (i ≤ b - 1))))).dedup]
        = defaultSelected m
    rw [sortUnique_eq _ ((List.range m.nx).map (fun i : Nat => (i : Int)))
          (nodup_rangeInt m.nx) (sorted_rangeInt m.nx) ?memx2,
        sortUnique_eq _ ((List.range m.ny).map (fun i : Nat => (i : Int)))
          (nodup_rangeInt m.ny) (sorted_rangeInt m.ny) ?memy2]
    case memx2 =>
      intro x
      rw [List.mem_append]
      tauto
    case memy2 =>
      intro x
      rw [List.mem_append, List.mem_filter, List.mem_filter, mem_rangeInt]
      simp only [decide_eq_true_eq, mem_rangeInt]
      omega
    rfl

theorem c5_witness :
    (0 : Int) ≤ 0 ∧ (0 : Int) < ((RectMesh.init [0, 1] [0, 1] none none).nx : Int) ∧
    join (greater (RectMesh.init [0, 1] [0, 1] none none) 0 0 none)
         (less (RectMesh.init [0, 1] [0, 1] none none) 0 (0 - 1) none) =
      defaultSelected (RectMesh.init [0, 1] [0, 1] none none) :=
  ⟨le_refl 0, by decide,
   (c5_partition_law (RectMesh.init [0, 1] [0, 1] none none) 0).1 (le_refl 0) (by decide)⟩

end EasyGmsh

namespace EasyGmsh

/-! ## Physical groups: loop infrastructure -/

/-- The cells `(iy, ix)` in iteration order (`iy` outer, `ix` inner). -/
def cellIdx (R C : Nat) : List (Nat × Nat) :=
  rowMajor (fun iy ix => (iy, ix)) R C

theorem length_cellIdx (R C : Nat) : (cellIdx R C).length = R * C :=
  length_rowMajor _ R C

theorem mem_cellIdx (R C : Nat) (p : Nat × Nat) :
    p ∈ cellIdx R C ↔ p.1 < R ∧ p.2 < C := by
  cases p with
  | mk iy ix =>
    rw [cellIdx, rowMajor]
    simp only [List.mem_flatMap, List.mem_map, List.mem_range]
    constructor
    · rintro ⟨r, hr, i, hi, he⟩
      obtain ⟨h1, h2⟩ : r = iy ∧ i = ix := by
        rw [Prod.mk.injEq] at he
        exact he
      subst h1
      subst h2
      exact ⟨hr, hi⟩
    · rintro ⟨h1, h2⟩
      exact ⟨iy, h1, ix, h2, rfl⟩

theorem nodup_cellIdx (R C : Nat) : (cellIdx R C).Nodup := by
  rw [cellIdx, rowMajor, List.nodup_flatMap]
  constructor
  · intro r _
    apply (List.nodup_range C).map
    intro a b hab
    rw [Prod.mk.injEq] at hab
    exact hab.2
  · apply List.Pairwise.imp ?_ (List.pairwise_lt_range R)
    intro a b hab
    intro x hxa hxb
    rw [List.mem_map] at hxa hxb
    obtain ⟨i, _, hi⟩ := hxa
    obtain ⟨j, _, hj⟩ := hxb
    rw [← hi, Prod.mk.injEq] at hj
    omega

/-- A nested row/column `foldl` is the `foldl` over the cell list. -/
theorem foldl_nested_range {σ : Type} (f : σ → Nat → Nat → σ) (R C : Nat) (s0 : σ) :
    (List.range R).foldl
      (fun s iy => (List.range C).foldl (fun s ix => f s iy ix) s) s0 =
    (cellIdx R C).foldl (fun s p => f s p.1 p.2) s0 := by
  suffices h : ∀ (L : List Nat) (s0 : σ),
      L.foldl (fun s iy => (List.range C).foldl (fun s ix => f s iy ix) s) s0 =
      (L.flatMap (fun iy => (List.range C).map (fun ix => (iy, ix)))).foldl
        (fun s p => f s p.1 p.2) s0 by
    exact h (List.range R) s0
  intro L
  induction L with
  | nil => intro s0; rfl
  | cons a t ih =>
    intro s0
    rw [List.foldl_cons, List.flatMap_cons, List.foldl_append, ih]
    congr 1
    rw [List.foldl_map]

/-- The 0-based material index the cell loop computes for cell `p = (iy, ix)`:
`M[ny-1-iy, ix] - 1`. -/
def cellMid (m : RectMesh) (mat : List (List Int)) (p : Nat × Nat) : Int :=
  (npGet2 mat (m.ny - 1 - p.1) p.2).getD 0 - 1

/-- Appending one entity to bucket `i` appends it to the flattened entity
multiset. -/
theorem flatMap_set_append_perm (l : List (String × List Int)) (i : Nat) (s : Int)
    (h : i < l.length) :
    ((l.set i ((l.getD i ("", [])).1, (l.getD i ("", [])).2 ++ [s])).flatMap
        (fun grp => grp.2)).Perm
      ((l.flatMap (fun grp => grp.2)) ++ [s]) := by
  induction l generalizing i with
  | nil => simp at h
  | cons a t ih =>
    cases i with
    | zero =>
      simp only [List.set_cons_zero, List.flatMap_cons, List.getD_cons_zero]
      rw [List.append_assoc]
      refine List.Perm.trans ?_
        ((List.perm_append_singleton s (a.2 ++ t.flatMap (fun grp => grp.2))).symm)
      exact List.perm_middle
    | succ j =>
      simp only [List.set_cons_succ, List.flatMap_cons, List.getD_cons_succ]
      have hj : j < t.length := by simpa using h
      have hstep := List.Perm.append_left a.2 (ih j hj)
      rw [← List.append_assoc] at hstep
      exact hstep

end EasyGmsh

namespace EasyGmsh

/-! ## Claim C9: out-of-range filters and non-broadcastable `resolve` -/

/-- C9 counterexample: `greater` with the out-of-range bound `-1` yields the
FULL axis index set, not the empty one, and raises no error — refuting the
claim that every out-of-range bound empties the axis. -/
theorem c9_counterexample :
    ((-1 : Int) < 0 ∨ ((RectMesh.init [0, 1] [0, 1] none none).nx : Int) ≤ -1) ∧
    (greater (RectMesh.init [0, 1] [0, 1] none none) 0 (-1) none).getD 0 [] = [(0 : Int)] ∧
    (greater (RectMesh.init [0, 1] [0, 1] none none) 0 (-1) none).getD 0 [] ≠ ([] : List Int) := by
  refine ⟨Or.inl (by decide), by decide, by decide⟩

/-- C9 amended: `greater` with a bound above the axis maximum yields an empty
axis set, `less` with a bound below `0` yields an empty axis set, `equal`
with a bound out of range on either side yields an empty axis set — all
without error (`greater` with a negative bound instead keeps the full set,
per the counterexample); and `resolve` on two axis sets of unequal lengths
both exceeding one is an `IndexError`, while `resolve` returns only surface
ids and leaves the mesh and session state untouched by construction. -/
theorem c9_amended_filters_resolve :
    (∀ (m : RectMesh) (bound : Int), (m.nx : Int) ≤ bound →
      (greater m 0 bound none).getD 0 [] = []) ∧
    (∀ (m : RectMesh) (bound : Int), (m.ny : Int) ≤ bound →
      (greater m 1 bound none).getD 1 [] = []) ∧
    (∀ (m : RectMesh) (bound : Int), bound < 0 →
      (less m 0 bound none).getD 0 [] = []) ∧
    (∀ (m : RectMesh) (bound : Int), bound < 0 →
      (less m 1 bound none).getD 1 [] = []) ∧
    (∀ (m : RectMesh) (bound : Int), bound < 0 ∨ (m.nx : Int) ≤ bound →
      (equal m 0 bound none).getD 0 [] = []) ∧
    (∀ (m : RectMesh) (bound : Int), bound < 0 ∨ (m.ny : Int) ≤ bound →
      (equal m 1 bound none).getD 1 [] = []) ∧
    (∀ (m : RectMesh) (xs ys : List Int), 1 < xs.length → 1 < ys.length →
      xs.length ≠ ys.length → resolve m [xs, ys] = .error .indexError) := by
  refine ⟨?_, ?_, ?_, ?_, ?_, ?_, ?_⟩
  · intro m bound h
    show ((List.range m.nx).map (fun i : Nat => (i : Int))).filter
        (fun i => decide (bound ≤ i)) = []
    rw [List.filter_eq_nil_iff]
    intro a ha
    rw [mem_rangeInt] at ha
    simp only [decide_eq_true_eq]
    omega
  · intro m bound h
    show ((List.range m.ny).map (fun i : Nat => (i : Int))).filter
        (fun i => decide (bound ≤ i)) = []
    rw [List.filter_eq_nil_iff]
    intro a ha
    rw [mem_rangeInt] at ha
    simp only [decide_eq_true_eq]
    omega
  · intro m bound h
    show ((List.range m.nx).map (fun i : Nat => (i : Int))).filter
        (fun i => decide (i ≤ bound)) = []
    rw [List.filter_eq_nil_iff]
    intro a ha
    rw [mem_rangeInt] at ha
    simp only [decide_eq_true_eq]
    omega
  · intro m bound h
    show ((List.range m.ny).map (fun i : Nat => (i : Int))).filter
        (fun i => decide (i ≤ bound)) = []
    rw [List.filter_eq_nil_iff]
    intro a ha
    rw [mem_rangeInt] at ha
    simp only [decide_eq_true_eq]
    omega
  · intro m bound h
    show ((List.range m.nx).map (fun i : Nat => (i : Int))).filter
        (fun i => decide (i = bound)) = []
    rw [List.filter_eq_nil_iff]
    intro a ha
    rw [mem_rangeInt] at ha
    simp only [decide_eq_true_eq]
    omega
  · intro m bound h
    show ((List.range m.ny).map (fun i : Nat => (i : Int))).filter
        (fun i => decide (i = bound)) = []
    rw [List.filter_eq_nil_iff]
    intro a ha
    rw [mem_rangeInt] at ha
    simp only [decide_eq_true_eq]
    omega
  · intro m xs ys h1 h2 hne
    rw [resolve]
    have h0 : ([xs, ys] : List (List Int)).getD 0 [] = xs := rfl
    have h1' : ([xs, ys] : List (List Int)).getD 1 [] = ys := rfl
    rw [h0, h1']
    have hb : broadcastPair xs ys = none := by
      rw [broadcastPair, if_neg hne, if_neg (by omega), if_neg (by omega)]
    rw [hb]

theorem c9_amended_witness :
    ((RectMesh.init [0, 1] [0, 1] none none).nx : Int) ≤ 5 ∧
    (greater (RectMesh.init [0, 1] [0, 1] none none) 0 5 none).getD 0 [] = [] :=
  ⟨by decide,
   c9_amended_filters_resolve.1 (RectMesh.init [0, 1] [0, 1] none none) 5 (by decide)⟩

/-! ## Claim C10: in-place mutation of a passed selection -/

theorem getD_set_self {α : Type} (l : List α) (i : Nat) (v d : α) (h : i < l.length) :
    (l.set i v).getD i d = v := by
  rw [List.getD_eq_getElem?_getD, List.getElem?_set, if_pos rfl, if_pos h]
  rfl

theorem getD_set_ne {α : Type} (l : List α) (i j : Nat) (v d : α) (h : i ≠ j) :
    (l.set i v).getD j d = l.getD j d := by
  rw [List.getD_eq_getElem?_getD, List.getElem?_set, if_neg h, ← List.getD_eq_getElem?_getD]

/-- C10: calling `greater` / `less` / `equal` with an explicitly passed
selection object mutates that object in place — the `dim` axis entry is
replaced by its filtered subset (`>= bound`, `<= bound`, `== bound`
respectively), every other axis entry of the object is unchanged, every other
object in the store is unchanged — and the value returned is the very same
reference, not a fresh copy. -/
theorem c10_inplace_filter_update (m : RectMesh) (dim : Nat) (bound : Int)
    (st : SelStore) (ref : Nat)
    (href : ref < st.length) (hdim : dim < (st.getD ref []).length) :
    ((greaterRef m dim bound st ref).1 = ref ∧
     ((greaterRef m dim bound st ref).2.getD ref []).getD dim [] =
       ((st.getD ref []).getD dim []).filter (fun i => decide (bound ≤ i)) ∧
     (∀ j, j ≠ dim → ((greaterRef m dim bound st ref).2.getD ref []).getD j [] =
       (st.getD ref []).getD j []) ∧
     (∀ r, r ≠ ref → (greaterRef m dim bound st ref).2.getD r [] = st.getD r [])) ∧
    ((lessRef m dim bound st ref).1 = ref ∧
     ((lessRef m dim bound st ref).2.getD ref []).getD dim [] =
       ((st.getD ref []).getD dim []).filter (fun i => decide (i ≤ bound)) ∧
     (∀ j, j ≠ dim → ((lessRef m dim bound st ref).2.getD ref []).getD j [] =
       (st.getD ref []).getD j []) ∧
     (∀ r, r ≠ ref → (lessRef m dim bound st ref).2.getD r [] = st.getD r [])) ∧
    ((equalRef m dim bound st ref).1 = ref ∧
     ((equalRef m dim bound st ref).2.getD ref []).getD dim [] =
       ((st.getD ref []).getD dim []).filter (fun i => decide (i = bound)) ∧
     (∀ j, j ≠ dim → ((equalRef m dim bound st ref).2.getD ref []).getD j [] =
       (st.getD ref []).getD j []) ∧
     (∀ r, r ≠ ref → (equalRef m dim bound st ref).2.getD r [] = st.getD r [])) := by
  refine ⟨⟨rfl, ?_, ?_, ?_⟩, ⟨rfl, ?_, ?_, ?_⟩, ⟨rfl, ?_, ?_, ?_⟩⟩
  · show ((st.set ref (greater m dim bound (some (st.getD ref [])))).getD ref []).getD dim [] = _
    rw [getD_set_self _ _ _ _ href]
    show (((st.getD ref []).set dim _).getD dim []) = _
    rw [getD_set_self _ _ _ _ hdim]
  · intro j hj
    show ((st.set ref (greater m dim bound (some (st.getD ref [])))).getD ref []).getD j [] = _
    rw [getD_set_self _ _ _ _ href]
    show (((st.getD ref []).set dim _).getD j []) = _
    rw [getD_set_ne _ _ _ _ _ (by omega)]
  · intro r hr
    show (st.set ref (greater m dim bound (some (st.getD ref [])))).getD r [] = _
    rw [getD_set_ne _ _ _ _ _ (by omega)]
  · show ((st.set ref (less m dim bound (some (st.getD ref [])))).getD ref []).getD dim [] = _
    rw [getD_set_self _ _ _ _ href]
    show (((st.getD ref []).set dim _).getD dim []) = _
    rw [getD_set_self _ _ _ _ hdim]
  · intro j hj
    show ((st.set ref (less m dim bound (some (st.getD ref [])))).getD ref []).getD j [] = _
    rw [getD_set_self _ _ _ _ href]
    show (((st.getD ref []).set dim _).getD j []) = _
    rw [getD_set_ne _ _ _ _ _ (by omega)]
  · intro r hr
    show (st.set ref (less m dim bound (some (st.getD ref [])))).getD r [] = _
    rw [getD_set_ne _ _ _ _ _ (by omega)]
  · show ((st.set ref (equal m dim bound (some (st.getD ref [])))).getD ref []).getD dim [] = _
    rw [getD_set_self _ _ _ _ href]
    show (((st.getD ref []).set dim _).getD dim []) = _
    rw [getD_set_self _ _ _ _ hdim]
  · intro j hj
    show ((st.set ref (equal m dim bound (some (st.getD ref [])))).getD ref []).getD j [] = _
    rw [getD_set_self _ _ _ _ href]
    show (((st.getD ref []).set dim _).getD j []) = _
    rw [getD_set_ne _ _ _ _ _ (by omega)]
  · intro r hr
    show (st.set ref (equal m dim bound (some (st.getD ref [])))).getD r [] = _
    rw [getD_set_ne _ _ _ _ _ (by omega)]

theorem c10_witness :
    (0 : Nat) < ([[[0, 1], [0, 1]]] : SelStore).length ∧
    (0 : Nat) < (([[[0, 1], [0, 1]]] : SelStore).getD 0 []).length ∧
    (greaterRef (RectMesh.init [0, 1] [0, 1] none none) 0 1
      ([[[0, 1], [0, 1]]] : SelStore) 0).1 = 0 :=
  ⟨by decide, by decide,
   (c10_inplace_filter_update (RectMesh.init [0, 1] [0, 1] none none) 0 1
     ([[[0, 1], [0, 1]]] : SelStore) 0 (by decide) (by decide)).1.1⟩

end EasyGmsh

namespace EasyGmsh

/-- The cell classification loop over an arbitrary list of cells: it succeeds
when every cell's matrix entry exists and is a 1-based id within the group
count, each bucket collects exactly its cells' surface ids in iteration
order, and the flattened entity multiset grows by exactly the processed
surface ids. -/
theorem pgCells_spec (m : RectMesh) (mat : List (List Int)) (L : List (Nat × Nat))
    (groups : List (String × List Int))
    (hval : ∀ p ∈ L, ∃ v : Int, npGet2 mat (m.ny - 1 - p.1) p.2 = some v ∧
      1 ≤ v ∧ v ≤ (groups.length : Int)) :
    ∃ groups',
      L.foldl (fun acc p => pgStep m mat acc p.1 p.2) (Except.ok groups) = .ok groups' ∧
      groups'.length = groups.length ∧
      (∀ gi, gi < groups.length →
        groups'.getD gi ("", []) =
          ((groups.getD gi ("", [])).1,
           (groups.getD gi ("", [])).2 ++
             (L.filter (fun p => decide (cellMid m mat p = (gi : Int)))).map
               (fun p => m.surfaces p.2 p.1))) ∧
      (groups'.flatMap (fun grp => grp.2)).Perm
        ((groups.flatMap (fun grp => grp.2)) ++ L.map (fun p => m.surfaces p.2 p.1)) := by
  induction L generalizing groups with
  | nil =>
    refine ⟨groups, rfl, rfl, ?_, by simp⟩
    intro gi h
    simp
  | cons c t ih =>
    obtain ⟨v, hv, hv1, hv2⟩ := hval c (List.mem_cons_self c t)
    have h1 : (v - 1 : Int) < (groups.length : Int) := by omega
    have hidx : pyListIdx groups.length (v - 1) = some (v - 1).toNat :=
      pyListIdx_pos _ _ (by omega) h1
    have hgi0 : ((v - 1).toNat : Int) = v - 1 := Int.toNat_of_nonneg (by omega)
    have hgi0lt : (v - 1).toNat < groups.length := by omega
    have hmidc : cellMid m mat c = v - 1 := by
      rw [cellMid, hv]
      rfl
    have hstep : pgStep m mat (Except.ok groups) c.1 c.2 =
        .ok (groups.set (v - 1).toNat
          ((groups.getD (v - 1).toNat ("", [])).1,
           (groups.getD (v - 1).toNat ("", [])).2 ++ [m.surfaces c.2 c.1])) := by
      simp only [pgStep, hv, hidx]
    rw [List.foldl_cons, hstep]
    obtain ⟨groups', heq, hlen, hchar, hperm⟩ :=
      ih (groups.set (v - 1).toNat
        ((groups.getD (v - 1).toNat ("", [])).1,
         (groups.getD (v - 1).toNat ("", [])).2 ++ [m.surfaces c.2 c.1]))
        (fun p hp => by
          obtain ⟨w, hw, hw1, hw2⟩ := hval p (List.mem_cons_of_mem c hp)
          refine ⟨w, hw, hw1, ?_⟩
          rw [List.length_set]
          exact hw2)
    rw [List.length_set] at hlen
    refine ⟨groups', heq, hlen, ?_, ?_⟩
    · intro gi hgi
      have hgi1 := hchar gi (by rw [List.length_set]; exact hgi)
      by_cases hcase : gi = (v - 1).toNat
      · subst hcase
        rw [hgi1, getD_set_self _ _ _ _ hgi0lt]
        have hpred : (decide (cellMid m mat c = (((v - 1).toNat : Nat) : Int))) = true := by
          rw [decide_eq_true_eq, hmidc, hgi0]
        rw [List.filter_cons, if_pos hpred, List.map_cons, List.append_assoc]
        rfl
      · rw [hgi1, getD_set_ne _ _ _ _ _ (fun hh => hcase hh.symm)]
        have hpred : ¬((decide (cellMid m mat c = (gi : Int))) = true) := by
          rw [decide_eq_true_eq, hmidc]
          intro hq
          apply hcase
          omega
        rw [List.filter_cons, if_neg hpred]
    · refine hperm.trans ?_
      have hmid := flatMap_set_append_perm groups (v - 1).toNat (m.surfaces c.2 c.1) hgi0lt
      refine (List.Perm.append_right (t.map (fun p => m.surfaces p.2 p.1)) hmid).trans ?_
      rw [List.append_assoc]
      rfl

end EasyGmsh

namespace EasyGmsh

/-- The registration loop appends one `(2, entities, group_id+1, name)` event
per group, in order. -/
theorem foldl_addPhysicalGroup (l : List (Nat × (String × List Int))) (g : GmshState) :
    l.foldl (fun gs p => addPhysicalGroup gs 2 p.2.2 ((p.1 : Int) + 1) p.2.1) g =
    { g with physicalGroups := g.physicalGroups ++
        l.map (fun p => (2, p.2.2, ((p.1 : Int) + 1), p.2.1)) } := by
  induction l generalizing g with
  | nil => simp
  | cons a t ih =>
    rw [List.foldl_cons, ih]
    simp only [addPhysicalGroup, List.map_cons]
    congr 1
    rw [List.append_assoc]
    rfl

theorem getD_map_pair (ns : List String) (gi : Nat) (h : gi < ns.length) :
    (ns.map (fun nm => (nm, ([] : List Int)))).getD gi ("", []) = (ns.getD gi "", []) := by
  rw [List.getD_eq_getElem?_getD, List.getElem?_map, List.getD_eq_getElem?_getD]
  rw [List.getElem?_eq_getElem h]
  rfl

theorem flatMap_empty_groups (ns : List String) :
    (ns.map (fun nm => (nm, ([] : List Int)))).flatMap (fun grp => grp.2) = [] := by
  induction ns with
  | nil => rfl
  | cons a t ih => simpa using ih

/-- Running `generate_physical_groups_core` on a well-formed matrix: one group per
name, each holding exactly its cells' surface ids, all `nx*ny` surface ids
distributed across the groups, and one registration event per group. -/
theorem generate_physical_groups_core_ok (m : RectMesh) (g : GmshState)
    (mat : List (List Int))
    (hval : ∀ p ∈ cellIdx m.ny m.nx, ∃ v : Int,
      npGet2 mat (m.ny - 1 - p.1) p.2 = some v ∧
      1 ≤ v ∧ v ≤ ((pgNames m mat).length : Int)) :
    ∃ groups',
      generate_physical_groups_core m g mat = .ok
        ({ m with _material_names := some (pgNames m mat), n_matrial := mat.length,
                  physical_groups := groups' },
         { g with physicalGroups := g.physicalGroups ++
             groups'.enum.map (fun p => (2, p.2.2, ((p.1 : Int) + 1), p.2.1)) }) ∧
      groups'.length = (pgNames m mat).length ∧
      (∀ gi, gi < (pgNames m mat).length →
        groups'.getD gi ("", []) =
          ((pgNames m mat).getD gi "",
           ((cellIdx m.ny m.nx).filter
              (fun p => decide (cellMid m mat p = (gi : Int)))).map
             (fun p => m.surfaces p.2 p.1))) ∧
      (groups'.flatMap (fun grp => grp.2)).Perm
        ((cellIdx m.ny m.nx).map (fun p => m.surfaces p.2 p.1)) := by
  obtain ⟨groups', heq, hlen, hchar, hperm⟩ :=
    pgCells_spec m mat (cellIdx m.ny m.nx) ((pgNames m mat).map (fun nm => (nm, [])))
      (fun p hp => by
        obtain ⟨v, hv, h1, h2⟩ := hval p hp
        refine ⟨v, hv, h1, ?_⟩
        rw [List.length_map]
        exact h2)
  rw [List.length_map] at hlen
  refine ⟨groups', ?_, hlen, ?_, ?_⟩
  · simp only [generate_physical_groups_core]
    rw [foldl_nested_range (fun acc iy ix => pgStep m mat acc iy ix) m.ny m.nx]
    rw [heq]
    dsimp only
    rw [foldl_addPhysicalGroup]
  · intro gi hgi
    have h1 := hchar gi (by rw [List.length_map]; exact hgi)
    rw [h1, getD_map_pair _ _ hgi]
    rfl
  · refine hperm.trans ?_
    rw [flatMap_empty_groups]
    rfl

/-- With a material matrix present, `generate_physical_groups` runs the core. -/
theorem generate_physical_groups_eq_core (m : RectMesh) (g : GmshState)
    (mat : List (List Int)) (hm : m._materials = some mat) :
    generate_physical_groups m g = generate_physical_groups_core m g mat := by
  unfold generate_physical_groups
  rw [hm]

/-- With no material matrix, `generate_physical_groups` raises
`RuntimeError("Materials not found.")`. -/
theorem generate_physical_groups_none (m : RectMesh) (g : GmshState)
    (hm : m._materials = none) :
    generate_physical_groups m g = .error (.runtimeError "Materials not found.") := by
  unfold generate_physical_groups
  rw [hm]

/-- The cell loop never raises `RuntimeError`: its only failure is
`IndexError`. -/
theorem pgFold_no_runtimeError (m : RectMesh) (mat : List (List Int))
    (L : List (Nat × Nat)) (acc : Except PyErr (List (String × List Int)))
    (hacc : ∀ s, acc ≠ .error (.runtimeError s)) :
    ∀ s, L.foldl (fun a p => pgStep m mat a p.1 p.2) acc ≠ .error (.runtimeError s) := by
  induction L generalizing acc with
  | nil => exact hacc
  | cons c t ih =>
    rw [List.foldl_cons]
    apply ih
    intro s
    cases acc with
    | error e =>
      have hred : pgStep m mat (.error e) c.1 c.2 = .error e := rfl
      rw [hred]
      exact hacc s
    | ok groups =>
      cases hget : npGet2 mat (m.ny - 1 - c.1) c.2 with
      | none =>
        have hred : pgStep m mat (.ok groups) c.1 c.2 = .error .indexError := by
          simp only [pgStep, hget]
        rw [hred]
        intro hcon
        rw [Except.error.injEq] at hcon
        cases hcon
      | some v =>
        cases hidx : pyListIdx groups.length (v - 1) with
        | none =>
          have hred : pgStep m mat (.ok groups) c.1 c.2 = .error .indexError := by
            simp only [pgStep, hget, hidx]
          rw [hred]
          intro hcon
          rw [Except.error.injEq] at hcon
          cases hcon
        | some gi =>
          have hred : pgStep m mat (.ok groups) c.1 c.2 =
              .ok (groups.set gi
                ((groups.getD gi ("", [])).1,
                 (groups.getD gi ("", [])).2 ++ [m.surfaces c.2 c.1])) := by
            simp only [pgStep, hget, hidx]
          rw [hred]
          intro hcon
          cases hcon

/-- Function `generate_physical_groups_core` never raises `RuntimeError`. -/
theorem core_no_runtimeError (m : RectMesh) (g : GmshState) (mat : List (List Int)) :
    ∀ s, generate_physical_groups_core m g mat ≠ .error (.runtimeError s) := by
  intro s
  simp only [generate_physical_groups_core]
  cases hres : (List.range m.ny).foldl
      (fun acc iy => (List.range m.nx).foldl (fun acc ix => pgStep m mat acc iy ix) acc)
      (Except.ok ((pgNames m mat).map (fun nm => (nm, [])))) with
  | error e =>
    have hno := pgFold_no_runtimeError m mat (cellIdx m.ny m.nx)
      (Except.ok ((pgNames m mat).map (fun nm => (nm, [])))) (fun s hc => by cases hc) s
    rw [foldl_nested_range (fun acc iy ix => pgStep m mat acc iy ix) m.ny m.nx] at hres
    rw [hres] at hno
    intro hcon
    have hcon' : (Except.error e : Except PyErr (RectMesh × GmshState)) =
        .error (.runtimeError s) := hcon
    rw [Except.error.injEq] at hcon'
    apply hno
    rw [hcon']
  | ok groups =>
    intro hcon
    exact Except.noConfusion hcon

end EasyGmsh

namespace EasyGmsh

/-! ## Claim C7: configuration error iff the matrix is absent -/

/-- C7: `generate_physical_groups` fails with the configuration error
(`RuntimeError("Materials not found.")`) if and only if the material matrix
is absent; when the matrix is present (and well-formed) but the names list is
absent, no error is raised and the names are defaulted to the stringified
0-based indices — no default materials are synthesized, only names. -/
theorem c7_config_error_iff_and_default_names (m : RectMesh) (g : GmshState) :
    ((∃ s, generate_physical_groups m g = .error (.runtimeError s)) ↔
      m._materials = none) ∧
    (∀ mat, m._materials = some mat → m._material_names = none →
      (∀ p ∈ cellIdx m.ny m.nx, ∃ v : Int, npGet2 mat (m.ny - 1 - p.1) p.2 = some v ∧
        1 ≤ v ∧ v ≤ (mat.length : Int)) →
      ∃ m' g', generate_physical_groups m g = .ok (m', g') ∧
        m'._material_names =
          some ((List.range mat.length).map (fun i => toString i))) := by
  constructor
  · constructor
    · rintro ⟨s, hs⟩
      cases hmm : m._materials with
      | none => rfl
      | some mat =>
        rw [generate_physical_groups_eq_core m g mat hmm] at hs
        exact absurd hs (core_no_runtimeError m g mat s)
    · intro hmm
      exact ⟨"Materials not found.", generate_physical_groups_none m g hmm⟩
  · intro mat hmm hnames hval
    have hpg : pgNames m mat = (List.range mat.length).map (fun i => toString i) := by
      rw [pgNames, hnames]
    have hval' : ∀ p ∈ cellIdx m.ny m.nx, ∃ v : Int,
        npGet2 mat (m.ny - 1 - p.1) p.2 = some v ∧
        1 ≤ v ∧ v ≤ ((pgNames m mat).length : Int) := by
      intro p hp
      obtain ⟨v, h1, h2, h3⟩ := hval p hp
      refine ⟨v, h1, h2, ?_⟩
      rw [hpg, List.length_map, List.length_range]
      exact h3
    obtain ⟨groups', heq, -, -, -⟩ := generate_physical_groups_core_ok m g mat hval'
    rw [generate_physical_groups_eq_core m g mat hmm]
    exact ⟨_, _, heq, by rw [hpg]⟩

theorem c7_witness :
    (RectMesh.init [0, 1] [0, 1, 2] (some [[1], [1]]) none)._materials = some [[1], [1]] ∧
    (RectMesh.init [0, 1] [0, 1, 2] (some [[1], [1]]) none)._material_names = none ∧
    (∃ m' g', generate_physical_groups
        (RectMesh.init [0, 1] [0, 1, 2] (some [[1], [1]]) none) GmshState.empty =
        .ok (m', g') ∧
      m'._material_names =
        some ((List.range ([[1], [1]] : List (List Int)).length).map
          (fun i => toString i))) := by
  refine ⟨rfl, rfl, ?_⟩
  apply (c7_config_error_iff_and_default_names
    (RectMesh.init [0, 1] [0, 1, 2] (some [[1], [1]]) none) GmshState.empty).2
    [[1], [1]] rfl rfl
  intro p hp
  have hp' : p = (0, 0) ∨ p = (1, 0) := by
    have hcells : cellIdx (RectMesh.init [0, 1] [0, 1, 2] (some [[1], [1]]) none).ny
        (RectMesh.init [0, 1] [0, 1, 2] (some [[1], [1]]) none).nx =
        [(0, 0), (1, 0)] := rfl
    rw [hcells] at hp
    simpa using hp
  rcases hp' with h | h
  · subst h
    exact ⟨1, by decide, by decide, by decide⟩
  · subst h
    exact ⟨1, by decide, by decide, by decide⟩

end EasyGmsh

namespace EasyGmsh

/-! ## Claim C2: material assignment with the vertical row flip -/

/-- Well-formed matrix hypotheses give each cell a valid entry. -/
theorem cell_values_valid (m0 : RectMesh) (mat : List (List Int)) (k : Nat)
    (hrows : mat.length = m0.ny) (hcols : ∀ row ∈ mat, row.length = m0.nx)
    (hv : ∀ row ∈ mat, ∀ v ∈ row, 1 ≤ v ∧ v ≤ (k : Int)) :
    ∀ p ∈ cellIdx m0.ny m0.nx, ∃ v : Int,
      npGet2 mat (m0.ny - 1 - p.1) p.2 = some v ∧ 1 ≤ v ∧ v ≤ (k : Int) := by
  intro p hp
  rw [mem_cellIdx] at hp
  obtain ⟨h1, h2⟩ := hp
  have hr : m0.ny - 1 - p.1 < mat.length := by omega
  have hrow := List.getElem_mem (l := mat) (n := m0.ny - 1 - p.1) hr
  have hc : p.2 < (mat[m0.ny - 1 - p.1]).length := by
    rw [hcols _ hrow]
    exact h2
  refine ⟨(mat[m0.ny - 1 - p.1])[p.2], ?_, ?_⟩
  · rw [npGet2, List.getElem?_eq_getElem hr]
    dsimp only
    rw [List.getElem?_eq_getElem hc]
  · exact hv _ hrow _ (List.getElem_mem hc)

/-- C2: for a material matrix of shape `(ny, nx)` with values in `1..k` and a
supplied list of `k` names, the cell loop reads cell `(ix, iy)`'s 0-based
material id as `M[ny-1-iy, ix] - 1` and appends the cell's surface id to that
group, so group `g` holds exactly the surfaces of the cells with
`M[ny-1-iy, ix] - 1 = g`. -/
theorem c2_material_assignment (m0 : RectMesh) (sz : Int) (mat : List (List Int))
    (ns : List String) (k : Nat)
    (hmat : m0._materials = some mat) (hns : m0._material_names = some ns)
    (hrows : mat.length = m0.ny) (hcols : ∀ row ∈ mat, row.length = m0.nx)
    (hk : ns.length = k)
    (hv : ∀ row ∈ mat, ∀ v ∈ row, 1 ≤ v ∧ v ≤ (k : Int)) :
    ∃ m' g',
      generate_physical_groups (builtMesh m0 sz).1 (builtMesh m0 sz).2 = .ok (m', g') ∧
      m'.physical_groups.length = k ∧
      (∀ gi, gi < k →
        m'.physical_groups.getD gi ("", []) =
          (ns.getD gi "",
           ((cellIdx m0.ny m0.nx).filter
              (fun p => decide (npGet2 mat (m0.ny - 1 - p.1) p.2 = some ((gi : Int) + 1)))).map
             (fun p => (builtMesh m0 sz).1.surfaces p.2 p.1))) ∧
      (∀ gi, gi < k → ∀ s : Int,
        s ∈ (m'.physical_groups.getD gi ("", [])).2 ↔
          ∃ ix iy, ix < m0.nx ∧ iy < m0.ny ∧
            npGet2 mat (m0.ny - 1 - iy) ix = some ((gi : Int) + 1) ∧
            s = (builtMesh m0 sz).1.surfaces ix iy) := by
  obtain ⟨nd, lx, ly, cg, sg, G, heq, hP, hL, hCL, hPS, hPG,
    hnd, hlx, hly, hcg, hsg, hloops, hps⟩ := builtMesh_spec m0 sz
  rw [heq]
  show ∃ m' g',
      generate_physical_groups
        { m0 with
            mesh_size := sz, nodes := nd, linex := lx, liney := ly,
            curves := cg, surfaces := sg } G = .ok (m', g') ∧ _
  have hmat' : ({ m0 with
            mesh_size := sz, nodes := nd, linex := lx, liney := ly,
            curves := cg, surfaces := sg } : RectMesh)._materials = some mat := hmat
  have hpg : pgNames { m0 with
            mesh_size := sz, nodes := nd, linex := lx, liney := ly,
            curves := cg, surfaces := sg } mat = ns := by
    rw [pgNames]
    show (match m0._material_names with
      | none => (List.range mat.length).map (fun i => toString i)
      | some ns => ns) = ns
    rw [hns]
  have hvalid := cell_values_valid m0 mat k hrows hcols hv
  have hval' : ∀ p ∈ cellIdx m0.ny m0.nx, ∃ v : Int,
      npGet2 mat (m0.ny - 1 - p.1) p.2 = some v ∧ 1 ≤ v ∧
      v ≤ ((pgNames { m0 with
            mesh_size := sz, nodes := nd, linex := lx, liney := ly,
            curves := cg, surfaces := sg } mat).length : Int) := by
    intro p hp
    obtain ⟨v, h1, h2, h3⟩ := hvalid p hp
    refine ⟨v, h1, h2, ?_⟩
    rw [hpg, hk]
    exact h3
  obtain ⟨groups', hco, hlen, hchar, hperm⟩ :=
    generate_physical_groups_core_ok
      { m0 with
            mesh_size := sz, nodes := nd, linex := lx, liney := ly,
            curves := cg, surfaces := sg } G mat hval'
  rw [generate_physical_groups_eq_core _ _ mat hmat', hco]
  have hfilter : ∀ gi : Nat,
      (cellIdx m0.ny m0.nx).filter
        (fun p => decide (cellMid { m0 with
            mesh_size := sz, nodes := nd, linex := lx,
            liney := ly, curves := cg, surfaces := sg } mat p = (gi : Int))) =
      (cellIdx m0.ny m0.nx).filter
        (fun p => decide (npGet2 mat (m0.ny - 1 - p.1) p.2 = some ((gi : Int) + 1))) := by
    intro gi
    apply List.filter_congr
    intro p hp
    obtain ⟨v, h1, h2, h3⟩ := hvalid p hp
    rw [decide_eq_decide]
    have hmid : cellMid { m0 with
            mesh_size := sz, nodes := nd, linex := lx,
            liney := ly, curves := cg, surfaces := sg } mat p = v - 1 := by
      rw [cellMid]
      show (npGet2 mat (m0.ny - 1 - p.1) p.2).getD 0 - 1 = v - 1
      rw [h1]
      rfl
    rw [hmid, h1, Option.some.injEq]
    omega
  have hlist : ∀ gi, gi < k →
      groups'.getD gi ("", []) =
        (ns.getD gi "",
         ((cellIdx m0.ny m0.nx).filter
            (fun p => decide (npGet2 mat (m0.ny - 1 - p.1) p.2 = some ((gi : Int) + 1)))).map
           (fun p => sg p.2 p.1)) := by
    intro gi hgi
    have h1 := hchar gi (by rw [hpg, hk]; exact hgi)
    rw [hpg] at h1
    have h2 : groups'.getD gi ("", []) =
        (ns.getD gi "",
         ((cellIdx m0.ny m0.nx).filter
            (fun p => decide (cellMid { m0 with
              mesh_size := sz, nodes := nd, linex := lx, liney := ly,
              curves := cg, surfaces := sg } mat p = (gi : Int)))).map
           (fun p => sg p.2 p.1)) := h1
    rw [hfilter gi] at h2
    exact h2
  refine ⟨_, _, rfl, by rw [hlen, hpg, hk], ?_, ?_⟩
  · intro gi hgi
    exact hlist gi hgi
  · intro gi hgi s
    rw [hlist gi hgi]
    show s ∈ ((cellIdx m0.ny m0.nx).filter
        (fun p => decide (npGet2 mat (m0.ny - 1 - p.1) p.2 = some ((gi : Int) + 1)))).map
        (fun p => sg p.2 p.1) ↔ _
    rw [List.mem_map]
    constructor
    · rintro ⟨p, hp, hs⟩
      rw [List.mem_filter] at hp
      obtain ⟨hpc, hpd⟩ := hp
      rw [mem_cellIdx] at hpc
      rw [decide_eq_true_eq] at hpd
      exact ⟨p.2, p.1, hpc.2, hpc.1, hpd, hs.symm⟩
    · rintro ⟨ix, iy, h2, h3, h4, h5⟩
      refine ⟨(iy, ix), ?_, h5.symm⟩
      rw [List.mem_filter, mem_cellIdx]
      refine ⟨⟨h3, h2⟩, ?_⟩
      rw [decide_eq_true_eq]
      exact h4

theorem c2_witness :
    ((RectMesh.init [0, 1, 2] [0, 1, 2] (some [[1, 2], [2, 1]])
        (some ["F1", "F2"]))._materials = some [[1, 2], [2, 1]] ∧
     ([[1, 2], [2, 1]] : List (List Int)).length =
       (RectMesh.init [0, 1, 2] [0, 1, 2] (some [[1, 2], [2, 1]])
         (some ["F1", "F2"])).ny) ∧
    (∃ m' g',
      generate_physical_groups
        (builtMesh (RectMesh.init [0, 1, 2] [0, 1, 2] (some [[1, 2], [2, 1]])
          (some ["F1", "F2"])) 1).1
        (builtMesh (RectMesh.init [0, 1, 2] [0, 1, 2] (some [[1, 2], [2, 1]])
          (some ["F1", "F2"])) 1).2 = .ok (m', g') ∧
      m'.physical_groups.length = 2) := by
  refine ⟨⟨rfl, rfl⟩, ?_⟩
  obtain ⟨m', g', heq, hlen, -, -⟩ :=
    c2_material_assignment
      (RectMesh.init [0, 1, 2] [0, 1, 2] (some [[1, 2], [2, 1]]) (some ["F1", "F2"]))
      1 [[1, 2], [2, 1]] ["F1", "F2"] 2 rfl rfl rfl
      (by decide) rfl (by decide)
  exact ⟨m', g', heq, hlen⟩

end EasyGmsh

namespace EasyGmsh

/-! ## Claim C6: group partition invariants -/

/-- C6 counterexample: with the material names defaulted, the code creates and
registers one group per ROW of the matrix (`len(materials)`), not one per
distinct material id: a 1×2 grid whose matrix holds only material 1 gets two
registered physical groups while only one distinct id is present. -/
theorem c6_counterexample :
    (Except.map (fun p => p.2.physicalGroups.length)
      (generate (RectMesh.init [0, 1] [0, 1, 2] (some [[1], [1]]) none) 1) =
      .ok 2) ∧
    ([[1], [1]] : List (List Int)).flatten.dedup.length = 1 ∧
    (2 : Nat) ≠ 1 := ⟨rfl, by decide, by decide⟩

/-- C6 amended: one physical group per entry of the (possibly defaulted)
material-names list — equally many registered with the kernel — with the
`nx*ny` surface ids distributed over the groups so that every surface id
occurs exactly once across all groups (totality and exclusivity); this holds
in particular when the names are defaulted, where the group count is the
matrix row count rather than the number of distinct ids present. -/
theorem c6_amended_partition (m0 : RectMesh) (sz : Int) (mat : List (List Int))
    (hmat : m0._materials = some mat)
    (hrows : mat.length = m0.ny) (hcols : ∀ row ∈ mat, row.length = m0.nx)
    (hv : ∀ row ∈ mat, ∀ v ∈ row, 1 ≤ v ∧ v ≤ ((pgNames m0 mat).length : Int)) :
    ∃ m' g',
      generate_physical_groups (builtMesh m0 sz).1 (builtMesh m0 sz).2 = .ok (m', g') ∧
      m'.physical_groups.length = (pgNames m0 mat).length ∧
      g'.physicalGroups.length = (pgNames m0 mat).length ∧
      (m'.physical_groups.flatMap (fun grp => grp.2)).length = m0.nx * m0.ny ∧
      (∀ ix iy, ix < m0.nx → iy < m0.ny →
        (m'.physical_groups.flatMap (fun grp => grp.2)).count
          ((builtMesh m0 sz).1.surfaces ix iy) = 1) := by
  obtain ⟨nd, lx, ly, cg, sg, G, heq, hP, hL, hCL, hPS, hPG,
    hnd, hlx, hly, hcg, hsg, hloops, hps⟩ := builtMesh_spec m0 sz
  rw [heq]
  have hmat' : ({ m0 with
      mesh_size := sz, nodes := nd, linex := lx, liney := ly,
      curves := cg, surfaces := sg } : RectMesh)._materials = some mat := hmat
  have hvalid := cell_values_valid m0 mat (pgNames m0 mat).length hrows hcols hv
  have hval' : ∀ p ∈ cellIdx m0.ny m0.nx, ∃ v : Int,
      npGet2 mat (m0.ny - 1 - p.1) p.2 = some v ∧ 1 ≤ v ∧
      v ≤ ((pgNames { m0 with
        mesh_size := sz, nodes := nd, linex := lx, liney := ly,
        curves := cg, surfaces := sg } mat).length : Int) := hvalid
  obtain ⟨groups', hco, hlen, hchar, hperm⟩ :=
    generate_physical_groups_core_ok
      { m0 with
        mesh_size := sz, nodes := nd, linex := lx, liney := ly,
        curves := cg, surfaces := sg } G mat hval'
  rw [generate_physical_groups_eq_core _ _ mat hmat', hco]
  have hperm' : (groups'.flatMap (fun grp => grp.2)).Perm
      ((cellIdx m0.ny m0.nx).map (fun p => sg p.2 p.1)) := hperm
  have hnodup : ((cellIdx m0.ny m0.nx).map (fun p => sg p.2 p.1)).Nodup := by
    apply List.Nodup.map_on ?_ (nodup_cellIdx m0.ny m0.nx)
    intro p hp q hq hpq
    rw [mem_cellIdx] at hp hq
    rw [hsg p.2 p.1 hp.2 hp.1, hsg q.2 q.1 hq.2 hq.1] at hpq
    have hn : p.1 * m0.nx + p.2 + 1 = q.1 * m0.nx + q.2 + 1 := by exact_mod_cast hpq
    have h2 := rowMajorIdx_inj m0.nx p.2 p.1 q.2 q.1 hp.2 hq.2 (by omega)
    exact Prod.ext h2.2 h2.1
  refine ⟨_, _, rfl, ?_, ?_, ?_, ?_⟩
  · show groups'.length = _
    rw [hlen]
    rfl
  · show (G.physicalGroups ++
      groups'.enum.map (fun p : Nat × (String × List Int) =>
        ((2 : Nat), p.2.2, ((p.1 : Int) + 1), p.2.1))).length = _
    rw [hPG, List.nil_append, List.length_map, List.enum_length, hlen]
    rfl
  · show (groups'.flatMap (fun grp => grp.2)).length = _
    rw [hperm'.length_eq, List.length_map, length_cellIdx]
    ring
  · intro ix iy hx hy
    show (groups'.flatMap (fun grp => grp.2)).count (sg ix iy) = 1
    rw [hperm'.count_eq]
    apply List.count_eq_one_of_mem hnodup
    rw [List.mem_map]
    exact ⟨(iy, ix), (mem_cellIdx m0.ny m0.nx (iy, ix)).mpr ⟨hy, hx⟩, rfl⟩

theorem c6_amended_witness :
    ((RectMesh.init [0, 1] [0, 1, 2] (some [[1], [1]]) none)._materials =
      some [[1], [1]] ∧
     ([[1], [1]] : List (List Int)).length =
       (RectMesh.init [0, 1] [0, 1, 2] (some [[1], [1]]) none).ny) ∧
    (∃ m' g',
      generate_physical_groups
        (builtMesh (RectMesh.init [0, 1] [0, 1, 2] (some [[1], [1]]) none) 1).1
        (builtMesh (RectMesh.init [0, 1] [0, 1, 2] (some [[1], [1]]) none) 1).2 =
        .ok (m', g') ∧
      m'.physical_groups.length =
        (pgNames (RectMesh.init [0, 1] [0, 1, 2] (some [[1], [1]]) none)
          [[1], [1]]).length) := by
  refine ⟨⟨rfl, rfl⟩, ?_⟩
  obtain ⟨m', g', heq, hlen, -, -, -⟩ :=
    c6_amended_partition (RectMesh.init [0, 1] [0, 1, 2] (some [[1], [1]]) none)
      1 [[1], [1]] rfl rfl (by decide) (by decide)
  exact ⟨m', g', heq, hlen⟩

end EasyGmsh

namespace EasyGmsh

/-! ## Claim C8: the assembly-materials export -/

/-- C8: `export_assembly_materials` flattens the physical groups into
`(surfaceId, groupIndex)` pairs, sorts them ascending by surface id, and
writes one line per pair in the exact format
`"{surfaceId:<5d} {materialId1Based:d}\n"`; on the spec's 2×2 scenario
(matrix `[[1,2],[2,1]]`, names `F1`/`F2`) the exported text is exactly
`"1     2\n2     1\n3     1\n4     2\n"`. -/
theorem c8_export_sorted_format (m : RectMesh) :
    ∃ ps : List (Int × Nat),
      ps.Perm (m.physical_groups.enum.flatMap
        (fun p => p.2.2.map (fun en => (en, p.1)))) ∧
      ps.Sorted (fun a b : Int × Nat => a.1 ≤ b.1) ∧
      export_assembly_materials m =
        String.join (ps.map (fun p => padRight5 (toString p.1) ++ " " ++
          toString ((p.2 : Int) + 1) ++ "\n")) ∧
      (Except.map (fun q => export_assembly_materials q.1)
        (generate (RectMesh.init [0, 1, 2] [0, 1, 2] (some [[1, 2], [2, 1]])
          (some ["F1", "F2"])) 1) =
        .ok "1     2\n2     1\n3     1\n4     2\n") := by
  haveI hT : IsTotal (Int × Nat) (fun a b : Int × Nat => a.1 ≤ b.1) :=
    ⟨fun a b => le_total a.1 b.1⟩
  haveI hTr : IsTrans (Int × Nat) (fun a b : Int × Nat => a.1 ≤ b.1) :=
    ⟨fun a b c hab hbc => le_trans hab hbc⟩
  refine ⟨List.insertionSort (fun a b : Int × Nat => a.1 ≤ b.1)
      (m.physical_groups.enum.flatMap (fun p => p.2.2.map (fun en => (en, p.1)))),
    List.perm_insertionSort _ _, List.sorted_insertionSort _ _, rfl, rfl⟩

end EasyGmsh
